import Mathlib

/-!
# Verification of the NL-to-SQL pipeline core

Shallow embedding of the SQL-extraction, schema-identifier translation and
result-materialization pipeline of the snowflake_nlp_agent_v2 repository
(src/src/agent/nlp_agent.py, src/src/utils/schema_obfuscator.py,
src/streamlit_app.py), together with theorems settling the specification
claims about it.

Strings are modelled as `List Char` (ASCII fragment: the Python string
operations used by the code — strip, upper, lower, split, substring search,
regular-expression word-boundary replacement — are embedded character by
character).
-/

set_option maxRecDepth 100000

namespace SnowNLP

/-- Character list of a string literal. -/
def sL (s : String) : List Char := s.data

/-- Python `str.isspace` / regex `\s` on the ASCII range:
space, tab, newline, carriage return, vertical tab, form feed. -/
def isWsChar (c : Char) : Bool :=
  c = ' ' || c = '\t' || c = '\n' || c = '\r' ||
  c = Char.ofNat 11 || c = Char.ofNat 12

/-- Regex word character `\w` on the ASCII range: letters, digits, underscore. -/
def isWordChar (c : Char) : Bool :=
  (('a' ≤ c && c ≤ 'z') || ('A' ≤ c && c ≤ 'Z') ||
   ('0' ≤ c && c ≤ '9') || c = '_')

/-- ASCII `str.upper` on one character. -/
def toUpperChar (c : Char) : Char :=
  if 'a' ≤ c && c ≤ 'z' then Char.ofNat (c.toNat - 32) else c

/-- ASCII `str.lower` on one character. -/
def toLowerChar (c : Char) : Char :=
  if 'A' ≤ c && c ≤ 'Z' then Char.ofNat (c.toNat + 32) else c

/-- ASCII `str.upper`. -/
def upperL (s : List Char) : List Char := s.map toUpperChar

/-- ASCII `str.lower`. -/
def lowerL (s : List Char) : List Char := s.map toLowerChar

/-- The backtick character (code point 96). -/
def btChar : Char := Char.ofNat 96

/-- Single-quote character (code point 39). -/
def sqChar : Char := Char.ofNat 39

/-- Double-quote character (code point 34). -/
def dqChar : Char := Char.ofNat 34

/-- Python `str.lstrip()` (whitespace only). -/
def lstripWs (s : List Char) : List Char := s.dropWhile isWsChar

/-- Python `str.rstrip()` (whitespace only). -/
def rstripWs (s : List Char) : List Char :=
  (s.reverse.dropWhile isWsChar).reverse

/-- Python `str.strip()`. -/
def stripWs (s : List Char) : List Char := rstripWs (lstripWs s)

/-- Python `str.strip(chars)` for a one-element char set. -/
def stripChar (c : Char) (s : List Char) : List Char :=
  ((s.dropWhile (fun d => d = c)).reverse.dropWhile (fun d => d = c)).reverse

/-- Python `str.strip(chars)` for a set of characters. -/
def stripCharSet (cs : List Char) (s : List Char) : List Char :=
  ((s.dropWhile (fun d => cs.contains d)).reverse.dropWhile
    (fun d => cs.contains d)).reverse

/-- Scanner for the Python substring test: does `pat` occur starting at some
position of `s`? -/
def containsSubAux (pat : List Char) : List Char → Bool
  | [] => pat.isEmpty
  | c :: rest => pat.isPrefixOf (c :: rest) || containsSubAux pat rest

/-- Python substring test `pat in s`. -/
def containsSub (pat s : List Char) : Bool := containsSubAux pat s

/-- `s.startswith` on one pattern. -/
def startsWithL (pat s : List Char) : Bool := pat.isPrefixOf s

/-- `s.endswith` on one pattern. -/
def endsWithL (pat s : List Char) : Bool := pat.isSuffixOf s

/-- `s.startswith(tuple)`. -/
def startsWithAny (pats : List (List Char)) (s : List Char) : Bool :=
  pats.any (fun p => startsWithL p s)

/-- `any(kw in s for kw in pats)`. -/
def containsAny (pats : List (List Char)) (s : List Char) : Bool :=
  pats.any (fun p => containsSub p s)

/-- `re.sub(r"\s+", " ", s)`: collapse every whitespace run to one space.
`prevWs` records whether the previous character was part of a run. -/
def collapseWsAux : List Char → Bool → List Char
  | [], _ => []
  | c :: cs, prevWs =>
    if isWsChar c then
      if prevWs then collapseWsAux cs true
      else ' ' :: collapseWsAux cs true
    else c :: collapseWsAux cs false

/-- `re.sub(r"\s+", " ", s)`. -/
def collapseWs (s : List Char) : List Char := collapseWsAux s false

/-!
## SQL Extractor — `clean_sql_response` (src/src/agent/nlp_agent.py lines 138-190)
-/

/-- The three-backtick fence. -/
def fence3 : List Char := [btChar, btChar, btChar]

/-- STEP 1 of `clean_sql_response`: the regex
`^BBB\s*\n(.*?)\nBBB$` (B = backtick) with DOTALL, applied by `re.search`
to the stripped text; the group is stripped.  A match requires the text to
start with the fence, end with newline-then-fence, and have a newline
inside the whitespace run that follows the opening fence, early enough to
leave room for the closing `\nBBB`.  All admissible choices of that newline
give the same stripped group, so the first one is used. -/
def multilineFenceMatch (s : List Char) : Option (List Char) :=
  if startsWithL fence3 s && endsWithL ('\n' :: fence3) s then
    let n := s.length
    let run := (s.drop 3).takeWhile isWsChar
    match run.findIdx? (fun c => c = '\n') with
    | some i =>
      if 3 + i + 5 ≤ n then
        some (stripWs ((s.drop (3 + i + 1)).take (n - 4 - (3 + i + 1))))
      else none
    | none => none
  else none

/-- Case-insensitive test whether a list starts with the tag `sql`. -/
def startsWithSqlTag (s : List Char) : Bool :=
  startsWithL (sL ("sql")) (lowerL (s.take 3))

/-- STEP 2 of `clean_sql_response`: the regex
`^BBB(?:sql)?\s*\n?(.*?)\n?BBB$` (B = backtick) with DOTALL and IGNORECASE;
the group is stripped.  The interior is the text between the two fences,
with an immediately following `sql`/`SQL` tag dropped; the `\s*\n?` and
`\n?` paddings are whitespace and disappear in the final strip. -/
def inlineFenceMatch (s : List Char) : Option (List Char) :=
  if startsWithL fence3 s && endsWithL fence3 s && 6 ≤ s.length then
    let inner := (s.drop 3).take (s.length - 6)
    some (stripWs (if startsWithSqlTag inner then inner.drop 3 else inner))
  else none

/-- STEP 3 of `clean_sql_response`:
`while cleaned.startswith(B) or cleaned.endswith(B): cleaned = cleaned.strip(B).strip()`.
Fuel-driven loop; each iteration removes at least one character, so
`length + 1` units of fuel always suffice. -/
def stripBackticksLoop : Nat → List Char → List Char
  | 0, s => s
  | fuel + 1, s =>
    if startsWithL [btChar] s || endsWithL [btChar] s then
      stripBackticksLoop fuel (stripWs (stripChar btChar s))
    else s

/-- STEP 4 inner loop of `clean_sql_response` applied to one line:
`line = line.strip()` then `while line.startswith(B): line = line[1:].strip()`. -/
def lineStripLoop : Nat → List Char → List Char
  | 0, l => l
  | fuel + 1, l =>
    if startsWithL [btChar] l then lineStripLoop fuel (stripWs (l.drop 1))
    else l

/-- One line of STEP 4. -/
def cleanLine (l : List Char) : List Char :=
  lineStripLoop (l.length + 1) (stripWs l)

/-- STEP 5 start keywords. -/
def sqlStartKeywords : List (List Char) :=
  [sL ("SELECT"), sL ("INSERT"), sL ("UPDATE"), sL ("DELETE"), sL ("WITH"),
   sL ("FROM"), sL ("WHERE"), sL ("GROUP"), sL ("ORDER"), sL ("HAVING"),
   sL ("LIMIT"), sL ("SHOW"), sL ("DESCRIBE"), sL ("EXPLAIN")]

/-- STEP 5 clause keywords (substring test). -/
def sqlClauseKeywords : List (List Char) :=
  [sL ("FROM"), sL ("WHERE"), sL ("AND"), sL ("OR"), sL ("ORDER BY"),
   sL ("GROUP BY"), sL ("HAVING"), sL ("INNER JOIN"), sL ("LEFT JOIN"),
   sL ("RIGHT JOIN")]

/-- STEP 5 keep condition on one (already cleaned) line. -/
def keepSqlLine (l : List Char) : Bool :=
  startsWithAny sqlStartKeywords (upperL l) ||
  containsAny sqlClauseKeywords (upperL l)

/-- Python `str.split(sep)` for a one-character separator (empty pieces
kept, the empty string splitting to one empty piece). -/
def splitOnChar (sep : Char) : List Char → List (List Char)
  | [] => [[]]
  | c :: rest =>
    if c = sep then [] :: splitOnChar sep rest
    else
      match splitOnChar sep rest with
      | [] => [[c]]
      | l :: ls => (c :: l) :: ls

/-- `" ".join(lines)`. -/
def joinLines : List (List Char) → List Char
  | [] => []
  | [l] => l
  | l :: rest => l ++ ' ' :: joinLines rest

/-- STEPS 1-2 of `clean_sql_response`: the stripped text after the fence
extraction (the multiline fence regex first, then the inline one, else the
stripped text itself). -/
def cleaned1def (x : List Char) : List Char :=
  match multilineFenceMatch (stripWs x) with
  | some g => g
  | none =>
    match inlineFenceMatch (stripWs x) with
    | some g => g
    | none => stripWs x

/-- STEP 3 of `clean_sql_response`: the boundary-backtick strip loop applied
to the fence-extraction result. -/
def cleaned2def (x : List Char) : List Char :=
  stripBackticksLoop ((cleaned1def x).length + 1) (cleaned1def x)

/-- `clean_sql_response` of src/src/agent/nlp_agent.py on a string input:
strip, try the multiline fence then the inline fence, strip boundary
backticks, clean and filter the lines, join with single spaces and collapse
whitespace. -/
def clean_sql_response (sqlText : List Char) : List Char :=
  let cleaned2 := cleaned2def sqlText
  let lines := (splitOnChar '\n' cleaned2).map cleanLine
  let cleanedLines := lines.filter (fun l => ¬ l.isEmpty)
  let sqlLines := cleanedLines.filter keepSqlLine
  collapseWs (stripWs (joinLines sqlLines))

/-!
## Identifier Translator — `SchemaObfuscator`
(src/src/utils/schema_obfuscator.py)
-/

/-- The code point of `toLowerChar` (two characters are equal iff their code
points are, so comparing lowered code points is exactly the ASCII
case-insensitive character comparison). -/
def lowCode (c : Char) : Nat :=
  if 65 ≤ c.toNat && c.toNat ≤ 90 then c.toNat + 32 else c.toNat

/-- Case-insensitive prefix match, character by character, compared on
lowered code points. -/
def patCharsCI : List Char → List Char → Bool
  | [], _ => true
  | _ :: _, [] => false
  | p :: ps, c :: cs => lowCode p = lowCode c && patCharsCI ps cs

/-- Case-sensitive match of `pat` at the head of `s`, or case-insensitive
when `ci` is set (regex IGNORECASE). -/
def patHere (ci : Bool) (pat s : List Char) : Bool :=
  if ci then patCharsCI pat s else pat.isPrefixOf s

/-- Both `\b` conditions of the pattern `\b pat \b` for an identifier
pattern occurring at the head of `s` with `prev` the original character
just before it (none at the start of the string). -/
def wordBounded (pat s : List Char) (prev : Option Char) : Bool :=
  (match prev with
   | none => true
   | some p => ¬ isWordChar p) &&
  (match s.drop pat.length with
   | [] => true
   | c :: _ => ¬ isWordChar c)

/-- `re.sub` with pattern `\b ident \b`: leftmost non-overlapping matches,
boundaries judged on the original characters, replacement text not
rescanned.  Fuel-driven; every step consumes at least one character of the
remaining input, so `length + 1` units of fuel suffice. -/
def replaceWordAux (ci : Bool) (pat repl : List Char) :
    Nat → Option Char → List Char → List Char
  | 0, _, s => s
  | _ + 1, _, [] => []
  | fuel + 1, prev, c :: rest =>
    if patHere ci pat (c :: rest) && wordBounded pat (c :: rest) prev then
      repl ++ replaceWordAux ci pat repl fuel
        ((c :: rest).take pat.length).getLast? ((c :: rest).drop pat.length)
    else
      c :: replaceWordAux ci pat repl fuel (some c) rest

/-- `re.sub(r"\b" + re.escape(pat) + r"\b", repl, s, flags)` for an
identifier `pat` (an empty pattern never fires, guarded up front). -/
def replaceWord (ci : Bool) (pat repl s : List Char) : List Char :=
  if pat.isEmpty then s else replaceWordAux ci pat repl (s.length + 1) none s

/-- Case-sensitive prefix match, character by character, compared on code
points (two characters are equal iff their code points are). -/
def patCharsCS : List Char → List Char → Bool
  | [], _ => true
  | _ :: _, [] => false
  | p :: ps, c :: cs => p.toNat = c.toNat && patCharsCS ps cs

/-- Python `str.replace(pat, repl)`: plain substring replacement,
case-sensitive, left to right, non-overlapping. -/
def replaceSubAux (pat repl : List Char) : Nat → List Char → List Char
  | 0, s => s
  | _ + 1, [] => []
  | fuel + 1, c :: rest =>
    if patCharsCS pat (c :: rest) then
      repl ++ replaceSubAux pat repl fuel ((c :: rest).drop pat.length)
    else
      c :: replaceSubAux pat repl fuel rest

/-- Python `str.replace(pat, repl)`. -/
def replaceSub (pat repl s : List Char) : List Char :=
  if pat.isEmpty then s else replaceSubAux pat repl (s.length + 1) s

/-- `TABLE_MAPPING` of `SchemaObfuscator`: real name to obfuscated name, in
source (dict insertion) order. -/
def TABLE_MAPPING : List (List Char × List Char) :=
  [(sL ("properties"), sL ("real_estate_items")),
   (sL ("locations"), sL ("geographic_areas")),
   (sL ("agents"), sL ("sales_representatives")),
   (sL ("transactions"), sL ("commercial_events")),
   (sL ("owners"), sL ("property_holders"))]

/-- `COLUMN_MAPPING` of `SchemaObfuscator`: qualified real column to
qualified obfuscated column, in source (dict insertion) order. -/
def COLUMN_MAPPING : List (List Char × List Char) :=
  [(sL ("properties.property_id"), sL ("real_estate_items.item_id")),
   (sL ("properties.location_id"), sL ("real_estate_items.area_ref")),
   (sL ("properties.price"), sL ("real_estate_items.monetary_value")),
   (sL ("properties.bedrooms"), sL ("real_estate_items.sleeping_rooms")),
   (sL ("properties.bathrooms"), sL ("real_estate_items.bath_facilities")),
   (sL ("properties.sqft"), sL ("real_estate_items.floor_area")),
   (sL ("properties.property_type"), sL ("real_estate_items.item_category")),
   (sL ("properties.status"), sL ("real_estate_items.current_state")),
   (sL ("properties.owner_id"), sL ("real_estate_items.holder_ref")),
   (sL ("properties.listing_agent_id"), sL ("real_estate_items.rep_ref")),
   (sL ("locations.location_id"), sL ("geographic_areas.area_id")),
   (sL ("locations.city"), sL ("geographic_areas.city_name")),
   (sL ("locations.state"), sL ("geographic_areas.state_name")),
   (sL ("locations.county"), sL ("geographic_areas.county_name")),
   (sL ("locations.zipcode"), sL ("geographic_areas.postal_code")),
   (sL ("locations.population"), sL ("geographic_areas.resident_count")),
   (sL ("locations.median_income"), sL ("geographic_areas.income_median")),
   (sL ("locations.avg_sale_price"), sL ("geographic_areas.price_average")),
   (sL ("agents.agent_id"), sL ("sales_representatives.rep_id")),
   (sL ("agents.first_name"), sL ("sales_representatives.first_name")),
   (sL ("agents.last_name"), sL ("sales_representatives.last_name")),
   (sL ("agents.agency"), sL ("sales_representatives.company_name")),
   (sL ("agents.transaction_count"), sL ("sales_representatives.deal_count")),
   (sL ("agents.avg_sale_price"), sL ("sales_representatives.average_deal_value")),
   (sL ("agents.commission_rate"), sL ("sales_representatives.fee_percentage")),
   (sL ("transactions.transaction_id"), sL ("commercial_events.event_id")),
   (sL ("transactions.property_id"), sL ("commercial_events.item_ref")),
   (sL ("transactions.agent_id"), sL ("commercial_events.rep_ref")),
   (sL ("transactions.sale_date"), sL ("commercial_events.completion_date")),
   (sL ("transactions.sale_price"), sL ("commercial_events.final_amount")),
   (sL ("transactions.days_on_market"), sL ("commercial_events.market_duration")),
   (sL ("owners.owner_id"), sL ("property_holders.holder_id")),
   (sL ("owners.first_name"), sL ("property_holders.first_name")),
   (sL ("owners.last_name"), sL ("property_holders.last_name")),
   (sL ("owners.num_properties_owned"), sL ("property_holders.item_count")),
   (sL ("owners.total_portfolio_value"), sL ("property_holders.portfolio_worth")),
   (sL ("owners.investor_flag"), sL ("property_holders.investor_status"))]

/-- `REVERSE_TABLE_MAPPING`: obfuscated to real, insertion order preserved. -/
def REVERSE_TABLE_MAPPING : List (List Char × List Char) :=
  TABLE_MAPPING.map (fun p => (p.2, p.1))

/-- `REVERSE_COLUMN_MAPPING`: obfuscated to real, insertion order preserved. -/
def REVERSE_COLUMN_MAPPING : List (List Char × List Char) :=
  COLUMN_MAPPING.map (fun p => (p.2, p.1))

/-- Stable insertion preserving the order of pairs whose source name has
the same length (Python `sorted(..., key=len, reverse=True)` is stable). -/
def insertByLenDesc (p : List Char × List Char) :
    List (List Char × List Char) → List (List Char × List Char)
  | [] => [p]
  | q :: qs =>
    if p.1.length ≤ q.1.length then q :: insertByLenDesc p qs
    else p :: q :: qs

/-- `sorted(pairs, key=lambda x: len(x[0]), reverse=True)` (stable). -/
def sortByLenDesc (ps : List (List Char × List Char)) :
    List (List Char × List Char) :=
  ps.foldl (fun acc p => insertByLenDesc p acc) []

/-- `name.split('.')[1]`: the bare column part of a qualified name. -/
def colPart (s : List Char) : List Char := (s.splitOn '.').getD 1 []

/-- One column-pair step shared by both translation directions: direct
case-sensitive substring replacement of the qualified `table.column` form,
then (whenever the source name is qualified) a case-insensitive whole-word
replacement of the bare column name. -/
def columnPairStep (s : List Char) (p : List Char × List Char) : List Char :=
  let s1 := replaceSub p.1 p.2 s
  if containsSub [Char.ofNat 46] p.1 then
    replaceWord true (colPart p.1) (colPart p.2) s1
  else s1

/-- Table-name pass of `translate_to_real_sql`: obfuscated tables to real
tables, longest first, whole-word, case-insensitive. -/
def realTablePass (s : List Char) : List Char :=
  (sortByLenDesc REVERSE_TABLE_MAPPING).foldl
    (fun acc p => replaceWord true p.1 p.2 acc) s

/-- Column pass of `translate_to_real_sql`, longest obfuscated name first. -/
def realColumnPass (s : List Char) : List Char :=
  (sortByLenDesc REVERSE_COLUMN_MAPPING).foldl columnPairStep s

/-- Table-name pass of `translate_to_obfuscated_sql`. -/
def obfTablePass (s : List Char) : List Char :=
  (sortByLenDesc TABLE_MAPPING).foldl
    (fun acc p => replaceWord true p.1 p.2 acc) s

/-- Column pass of `translate_to_obfuscated_sql`. -/
def obfColumnPass (s : List Char) : List Char :=
  (sortByLenDesc COLUMN_MAPPING).foldl columnPairStep s

/-- `translate_to_real_sql` on a (truthy) string: the code replaces table
names first, then column references. -/
def translate_to_real_sql (s : List Char) : List Char :=
  if s.isEmpty then s else realColumnPass (realTablePass s)

/-- `translate_to_obfuscated_sql` on a (truthy) string: the code replaces
column references first, then table names. -/
def translate_to_obfuscated_sql (s : List Char) : List Char :=
  if s.isEmpty then s else obfTablePass (obfColumnPass s)

/-- Modelled from the spec: the algorithm of section 4.2 as worded —
"process table-name replacements first", then column replacements — for the
obfuscating direction.  Used only to compare the code order against the
spec order. -/
def translate_to_obfuscated_sql_spec_order (s : List Char) : List Char :=
  if s.isEmpty then s else obfColumnPass (obfTablePass s)

/-- The columns-before-tables variant of the realifying direction, the
order the code does NOT use; evidence for the actual order of
`translate_to_real_sql`. -/
def translate_to_real_sql_swapped_order (s : List Char) : List Char :=
  if s.isEmpty then s else realTablePass (realColumnPass s)

/-- Case and whitespace normalization used to compare SQL strings
"up to case and whitespace normalization". -/
def normCaseWs (s : List Char) : List Char := collapseWs (stripWs (lowerL s))

/-!
## Python values

The materializer receives Python values: rows are tuples inside lists,
cells are ints, floats, `Decimal`s, strings, booleans or `None`.  Floats
and decimals are modelled as exact scaled integers `m / 10^e`; every float
appearing in the verified executions is produced from a decimal literal of
few significant digits, where CPython's shortest-round-trip `repr` is
exactly the literal with trailing fractional zeros removed (or `.0` for an
integral value), which is the printing rule used here.
-/

inductive PyVal where
  | none
  | bool (b : Bool)
  | int (n : Int)
  | float (m : Int) (e : Nat)
  | dec (m : Int) (e : Nat)
  | str (s : List Char)
  | tuple (xs : List PyVal)
  | list (xs : List PyVal)
  | dict (kvs : List (List Char × PyVal))

/-- Strip trailing zero fractional digits of a scaled decimal, the
normalization a decimal literal undergoes when converted to a float. -/
def normFloat (m : Int) : Nat → Int × Nat
  | 0 => (m, 0)
  | e + 1 => if m % 10 = 0 then normFloat (m / 10) e else (m, e + 1)

/-- A float from a scaled decimal, normalized. -/
def PyVal.mkFloat (m : Int) (e : Nat) : PyVal :=
  let p := normFloat m e
  .float p.1 p.2

/-- Python truthiness. -/
def pyTruthy : PyVal → Bool
  | .none => false
  | .bool b => b
  | .int n => n ≠ 0
  | .float m _ => m ≠ 0
  | .dec m _ => m ≠ 0
  | .str s => ¬ s.isEmpty
  | .tuple xs => ¬ xs.isEmpty
  | .list xs => ¬ xs.isEmpty
  | .dict kvs => ¬ kvs.isEmpty

/-- The numeric value of a Python number as a scaled integer, when the
value is one (booleans count as 0/1, as in Python). -/
def pyNum : PyVal → Option (Int × Nat)
  | .bool b => some (if b then 1 else 0, 0)
  | .int n => some (n, 0)
  | .float m e => some (m, e)
  | .dec m e => some (m, e)
  | _ => Option.none

/-- Comparison of two scaled integers as rationals. -/
def scaledLt (a b : Int × Nat) : Bool :=
  a.1 * (10 : Int) ^ b.2 < b.1 * (10 : Int) ^ a.2

/-- Equality of two scaled integers as rationals. -/
def scaledEq (a b : Int × Nat) : Bool :=
  a.1 * (10 : Int) ^ b.2 = b.1 * (10 : Int) ^ a.2

mutual

/-- Python `==`: numbers compare by value across int/float/bool/Decimal,
containers elementwise, everything else by constructor. -/
def pyEquals : PyVal → PyVal → Bool
  | .str a, .str b => a = b
  | .none, .none => true
  | .tuple a, .tuple b => pyEqualsList a b
  | .list a, .list b => pyEqualsList a b
  | .dict a, .dict b => pyEqualsKvs a b
  | a, b =>
    match pyNum a, pyNum b with
    | some x, some y => scaledEq x y
    | _, _ => false

/-- Elementwise `==` on sequences. -/
def pyEqualsList : List PyVal → List PyVal → Bool
  | [], [] => true
  | a :: as1, b :: bs1 => pyEquals a b && pyEqualsList as1 bs1
  | _, _ => false

/-- `==` on dicts with equal key order (sufficient for this code). -/
def pyEqualsKvs : List (List Char × PyVal) → List (List Char × PyVal) → Bool
  | [], [] => true
  | a :: as1, b :: bs1 => a.1 = b.1 && pyEquals a.2 b.2 && pyEqualsKvs as1 bs1
  | _, _ => false

end

/-- Python `len`, `none` when the value has no length (`TypeError`). -/
def pyLen : PyVal → Option Nat
  | .str s => some s.length
  | .tuple xs => some xs.length
  | .list xs => some xs.length
  | .dict kvs => some kvs.length
  | _ => Option.none

/-- Python subscript `v[i]` for a natural index; `none` models the raised
`TypeError`/`IndexError`. -/
def pyIndex : PyVal → Nat → Option PyVal
  | .str s, i => (s.get? i).map (fun c => .str [c])
  | .tuple xs, i => xs.get? i
  | .list xs, i => xs.get? i
  | _, _ => Option.none

/-- Python iteration over a value; `none` models `TypeError` for
non-iterables.  A string yields its characters, a dict its keys. -/
def pyIterate : PyVal → Option (List PyVal)
  | .str s => some (s.map (fun c => .str [c]))
  | .tuple xs => some xs
  | .list xs => some xs
  | .dict kvs => some (kvs.map (fun p => .str p.1))
  | _ => Option.none

/-- Decimal digit characters of a natural number. -/
def natDigits (n : Nat) : List Char := (Nat.toDigits 10 n)

/-- Decimal string of an integer (Python `str(int)`). -/
def intStr (n : Int) : List Char :=
  if n < 0 then '-' :: natDigits n.natAbs else natDigits n.natAbs

/-- Digit string of a scaled decimal `m / 10^e` with an explicit decimal
point when `e > 0` (Python `str` of a `Decimal`, which keeps its scale). -/
def scaledStr (m : Int) (e : Nat) : List Char :=
  if e = 0 then intStr m
  else
    let ds := natDigits m.natAbs
    let ds2 := List.replicate (e + 1 - ds.length) '0' ++ ds
    let ip := ds2.take (ds2.length - e)
    let fp := ds2.drop (ds2.length - e)
    (if m < 0 then ['-'] else []) ++ ip ++ '.' :: fp

/-- Python `repr`/`str` of a float in the verified fragment: the value is
a normalized scaled decimal, printed with `.0` when integral. -/
def floatStr (m : Int) (e : Nat) : List Char :=
  if e = 0 then intStr m ++ sL (".0") else scaledStr m e

mutual

/-- Python `repr` on the value fragment in use.  Strings are quoted with a
single quote, or a double quote when the text contains a single quote and
no double quote (escape sequences do not occur in the verified fragment). -/
def pyRepr : PyVal → List Char
  | .none => sL ("None")
  | .bool b => if b then sL ("True") else sL ("False")
  | .int n => intStr n
  | .float m e => floatStr m e
  | .dec m e =>
    sL ("Decimal(") ++ sqChar :: scaledStr m e ++ [sqChar, ')']
  | .str s =>
    if s.contains sqChar && ¬ s.contains dqChar then dqChar :: s ++ [dqChar]
    else sqChar :: s ++ [sqChar]
  | .tuple xs =>
    if xs.length = 1 then '(' :: pyReprSeq xs ++ sL (",)")
    else '(' :: pyReprSeq xs ++ [')']
  | .list xs => '[' :: pyReprSeq xs ++ [']']
  | .dict kvs => Char.ofNat 123 :: pyReprKvs kvs ++ [Char.ofNat 125]

/-- Comma-separated `repr`s of sequence elements. -/
def pyReprSeq : List PyVal → List Char
  | [] => []
  | [x] => pyRepr x
  | x :: xs => pyRepr x ++ sL (", ") ++ pyReprSeq xs

/-- Comma-separated `repr`s of dict items. -/
def pyReprKvs : List (List Char × PyVal) → List Char
  | [] => []
  | [p] => sqChar :: p.1 ++ [sqChar, ':', ' '] ++ pyRepr p.2
  | p :: ps =>
    sqChar :: p.1 ++ [sqChar, ':', ' '] ++ pyRepr p.2 ++ sL (", ") ++
      pyReprKvs ps

end

/-- Python `str()`: like `repr` except on strings, where it is the text
itself. -/
def pyStr : PyVal → List Char
  | .str s => s
  | v => pyRepr v

/-!
## Result parsing — `parse_sql_result_string` (src/streamlit_app.py lines 231-383)
-/

/-- ASCII digit test. -/
def isDigitChar (c : Char) : Bool := '0' ≤ c && c ≤ '9'

/-- Python `int(...)` on a stripped token: optional sign then digits. -/
def intParse (s : List Char) : Option Int :=
  let core := fun (ds : List Char) =>
    if ¬ ds.isEmpty && ds.all isDigitChar then
      some (Int.ofNat (ds.foldl (fun a c => a * 10 + (c.toNat - 48)) 0))
    else Option.none
  match s with
  | '-' :: rest => (core rest).map (fun n => -n)
  | '+' :: rest => core rest
  | _ => core s

/-- Python `float(...)` on a stripped decimal token: optional sign, digits
with an optional point and an optional exponent; the result is the exact
scaled integer. -/
def floatParse (s : List Char) : Option (Int × Nat) :=
  let signAndRest : Bool × List Char :=
    match s with
    | '-' :: rest => (true, rest)
    | '+' :: rest => (false, rest)
    | _ => (false, s)
  let body := signAndRest.2
  let ip := body.takeWhile isDigitChar
  let afterIp := body.drop ip.length
  let pointed : Option (List Char × List Char) :=
    match afterIp with
    | '.' :: rest2 =>
      let fp := rest2.takeWhile isDigitChar
      some (fp, rest2.drop fp.length)
    | _ => some ([], afterIp)
  match pointed with
  | Option.none => Option.none
  | some (fp, rest3) =>
    if ip.isEmpty && fp.isEmpty then Option.none
    else
      let mant : Int :=
        Int.ofNat ((ip ++ fp).foldl (fun a c => a * 10 + (c.toNat - 48)) 0)
      let mant2 := if signAndRest.1 then -mant else mant
      let withExp : Option (Int × Nat) :=
        match rest3 with
        | [] => some (mant2, fp.length)
        | c :: rest4 =>
          if c = 'e' || c = 'E' then
            let es : Bool × List Char :=
              match rest4 with
              | '-' :: r => (true, r)
              | '+' :: r => (false, r)
              | _ => (false, rest4)
            if ¬ es.2.isEmpty && es.2.all isDigitChar then
              let ev := es.2.foldl (fun a c2 => a * 10 + (c2.toNat - 48)) 0
              if es.1 then some (mant2, fp.length + ev)
              else if fp.length ≤ ev then
                some (mant2 * (10 : Int) ^ (ev - fp.length), 0)
              else some (mant2, fp.length - ev)
            else Option.none
          else Option.none
      withExp

/-- One or more adjacent quoted string literals (Python concatenates
adjacent literals), without escape sequences; value and rest. -/
def parseStrLits : Nat → List Char → Option (List Char × List Char)
  | 0, _ => Option.none
  | fuel + 1, s =>
    match s with
    | c :: rest =>
      if c = sqChar || c = dqChar then
        let body := rest.takeWhile (fun d => d ≠ c && d ≠ '\\')
        match rest.drop body.length with
        | d :: rest2 =>
          if d = c then
            match (rest2.dropWhile isWsChar) with
            | e :: _ =>
              if e = sqChar || e = dqChar then
                match parseStrLits fuel (rest2.dropWhile isWsChar) with
                | some p => some (body ++ p.1, p.2)
                | Option.none => Option.none
              else some (body, rest2)
            | [] => some (body, rest2)
          else Option.none
        | [] => Option.none
      else Option.none
    | [] => Option.none

mutual

/-- `ast.literal_eval` value parser on the fragment the pipeline feeds it:
lists, tuples (with Python's parenthesized-expression rule), quoted strings
without escape sequences, signed int/float literals, `True`/`False`/`None`.
Returns the value and the unconsumed input.  Fuel bounds the nesting. -/
def parseLitVal : Nat → List Char → Option (PyVal × List Char)
  | 0, _ => Option.none
  | fuel + 1, s0 =>
    match s0.dropWhile isWsChar with
    | [] => Option.none
    | c :: rest =>
      if c = '[' then
        match parseLitItems fuel ']' rest [] with
        | some (xs, rest2) => some (.list xs, rest2)
        | Option.none => Option.none
      else if c = '(' then
        match rest.dropWhile isWsChar with
        | ')' :: rest2 => some (.tuple [], rest2)
        | _ =>
          match parseLitVal fuel rest with
          | Option.none => Option.none
          | some (e, rest2) =>
            match rest2.dropWhile isWsChar with
            | ')' :: rest3 => some (e, rest3)
            | ',' :: rest3 =>
              match parseLitItems fuel ')' rest3 [e] with
              | some (xs, rest4) => some (.tuple xs, rest4)
              | Option.none => Option.none
            | _ => Option.none
      else if c = sqChar || c = dqChar then
        match parseStrLits (rest.length + 1) (c :: rest) with
        | some p => some (.str p.1, p.2)
        | Option.none => Option.none
      else if isDigitChar c || c = '-' || c = '+' || c = '.' then
        let tok := (c :: rest).takeWhile (fun d =>
          isDigitChar d || d = '.' || d = '-' || d = '+' || d = 'e' || d = 'E')
        let rest2 := (c :: rest).drop tok.length
        if tok.contains '.' || tok.contains 'e' || tok.contains 'E' then
          match floatParse tok with
          | some p => some (.mkFloat p.1 p.2, rest2)
          | Option.none => Option.none
        else
          match intParse tok with
          | some n => some (.int n, rest2)
          | Option.none => Option.none
      else
        let name := (c :: rest).takeWhile (fun d =>
          ('a' ≤ d && d ≤ 'z') || ('A' ≤ d && d ≤ 'Z'))
        let rest2 := (c :: rest).drop name.length
        if name = sL ("None") then some (.none, rest2)
        else if name = sL ("True") then some (.bool true, rest2)
        else if name = sL ("False") then some (.bool false, rest2)
        else Option.none

/-- Comma-separated items up to a closing bracket, trailing comma allowed. -/
def parseLitItems (fuel : Nat) (close : Char) (s : List Char)
    (acc : List PyVal) : Option (List PyVal × List Char) :=
  match fuel with
  | 0 => Option.none
  | fuel2 + 1 =>
    match s.dropWhile isWsChar with
    | [] => Option.none
    | c :: rest =>
      if c = close then some (acc, rest)
      else
        match parseLitVal fuel2 (c :: rest) with
        | Option.none => Option.none
        | some (e, rest2) =>
          match rest2.dropWhile isWsChar with
          | d :: rest3 =>
            if d = close then some (acc ++ [e], rest3)
            else if d = ',' then parseLitItems fuel2 close rest3 (acc ++ [e])
            else Option.none
          | [] => Option.none

end

/-- `ast.literal_eval`: whole-string parse. -/
def pyLiteralEval (s : List Char) : Option PyVal :=
  match parseLitVal (s.length + 1) s with
  | some (v, rest) =>
    if (rest.dropWhile isWsChar).isEmpty then some v else Option.none
  | Option.none => Option.none

/-- One match of `datetime\.date\((\d+),\s*(\d+),\s*(\d+)\)` at the head of
the input: the three digit groups and the rest. -/
def matchDtDate (s : List Char) : Option (List Char × List Char × List Char × List Char) :=
  if (sL ("datetime.date(")).isPrefixOf s then
    let r0 := s.drop 14
    let d1 := r0.takeWhile isDigitChar
    if d1.isEmpty then Option.none else
    match r0.drop d1.length with
    | ',' :: r1 =>
      let r2 := r1.dropWhile isWsChar
      let d2 := r2.takeWhile isDigitChar
      if d2.isEmpty then Option.none else
      match r2.drop d2.length with
      | ',' :: r3 =>
        let r4 := r3.dropWhile isWsChar
        let d3 := r4.takeWhile isDigitChar
        if d3.isEmpty then Option.none else
        match r4.drop d3.length with
        | ')' :: r5 => some (d1, d2, d3, r5)
        | _ => Option.none
      | _ => Option.none
    | _ => Option.none
  else Option.none

/-- `re.sub` of the `datetime.date` pattern with replacement `'d1-d2-d3'`. -/
def dtDateSub : Nat → List Char → List Char
  | 0, s => s
  | _ + 1, [] => []
  | fuel + 1, c :: rest =>
    match matchDtDate (c :: rest) with
    | some (d1, d2, d3, r) =>
      sqChar :: (d1 ++ '-' :: d2 ++ '-' :: d3) ++ sqChar :: dtDateSub fuel r
    | Option.none => c :: dtDateSub fuel rest

/-- `re.sub` of `datetime\.datetime\(([^)]+)\)` with the quoted
`datetime(components)` replacement. -/
def dtDatetimeSub : Nat → List Char → List Char
  | 0, s => s
  | _ + 1, [] => []
  | fuel + 1, c :: rest =>
    if (sL ("datetime.datetime(")).isPrefixOf (c :: rest) then
      let r0 := (c :: rest).drop 18
      let comps := r0.takeWhile (fun d => d ≠ ')')
      if comps.isEmpty then c :: dtDatetimeSub fuel rest
      else
        match r0.drop comps.length with
        | ')' :: r1 =>
          sqChar :: (sL ("datetime(") ++ comps ++ [')']) ++
            sqChar :: dtDatetimeSub fuel r1
        | _ => c :: dtDatetimeSub fuel rest
    else c :: dtDatetimeSub fuel rest

/-- `re.sub` of `DECIMAL_REGEX = Decimal\('([^']+)'\)` with the bare
group. -/
def decimalSubAux : Nat → List Char → List Char
  | 0, s => s
  | _ + 1, [] => []
  | fuel + 1, c :: rest =>
    if (sL ("Decimal(") ++ [sqChar]).isPrefixOf (c :: rest) then
      let r0 := (c :: rest).drop 9
      let inner := r0.takeWhile (fun d => d ≠ sqChar)
      if inner.isEmpty then c :: decimalSubAux fuel rest
      else
        match r0.drop inner.length with
        | q :: cp :: r1 =>
          if q = sqChar && cp = ')' then inner ++ decimalSubAux fuel r1
          else c :: decimalSubAux fuel rest
        | _ => c :: decimalSubAux fuel rest
    else c :: decimalSubAux fuel rest

/-- `re.sub(DECIMAL_REGEX, r"\1", s)`. -/
def decimalSub (s : List Char) : List Char := decimalSubAux (s.length + 1) s

/-- `re.sub(r"\bNone\b", "'None'", s)` (case-sensitive). -/
def noneSub (s : List Char) : List Char :=
  replaceWord false (sL ("None")) (sqChar :: sL ("None") ++ [sqChar]) s

/-- State of the manual tuple-boundary scanner of the fallback branch. -/
structure ScanSt where
  tuples : List (List (List Char))
  cur : List (List Char)
  depth : Nat
  elem : List Char

/-- One character of the fallback scanner, as in the source: tuples open at
depth 0, elements split on commas at depth 1, nested parens tracked. -/
def scanStep (st : ScanSt) (c : Char) : ScanSt :=
  if c = '(' && st.depth = 0 then
    { tuples := if ¬ st.cur.isEmpty then st.tuples ++ [st.cur] else st.tuples,
      cur := [], depth := 1, elem := [] }
  else if c = ')' && st.depth = 1 then
    let cur2 :=
      if ¬ (stripWs st.elem).isEmpty then st.cur ++ [stripWs st.elem]
      else st.cur
    { tuples := if ¬ cur2.isEmpty then st.tuples ++ [cur2] else st.tuples,
      cur := [], depth := 0, elem := [] }
  else if c = '(' && 0 < st.depth then
    { st with depth := st.depth + 1, elem := st.elem ++ [c] }
  else if c = ')' && 1 < st.depth then
    { st with depth := st.depth - 1, elem := st.elem ++ [c] }
  else if c = ',' && st.depth = 1 then
    { st with
      cur := if ¬ (stripWs st.elem).isEmpty then st.cur ++ [stripWs st.elem]
             else st.cur,
      elem := [] }
  else if 0 < st.depth then
    { st with elem := st.elem ++ [c] }
  else st

/-- Typed conversion of one scanned element, as in the source: strip
quotes, special-case null and boolean tokens, then try int/float when the
text is digits after dropping dots and dashes, else keep the string. -/
def convertElem (e0 : List Char) : PyVal :=
  let e := stripCharSet [sqChar, dqChar] (stripWs e0)
  if e = sL ("None") || e = sL ("null") || e = sL ("NULL") then .str []
  else if e = sL ("True") || e = sL ("true") then .bool true
  else if e = sL ("False") || e = sL ("false") then .bool false
  else
    let f := e.filter (fun c => ¬ (c = '.' || c = '-'))
    if ¬ f.isEmpty && f.all isDigitChar then
      if e.contains '.' then
        match floatParse e with
        | some p => PyVal.mkFloat p.1 p.2
        | Option.none => .str e
      else
        match intParse e with
        | some n => .int n
        | Option.none => .str e
    else .str e

/-- The advanced fallback of `parse_sql_result_string`: strip outer
brackets, scan tuple boundaries, convert elements; yields the parsed
tuples, or nothing when no tuple was recognized. -/
def manualFallback (cs : List Char) : Option PyVal :=
  let work :=
    if startsWithL ['['] cs && endsWithL [']'] cs then
      (cs.drop 1).take (cs.length - 2)
    else cs
  let st := work.foldl scanStep ⟨[], [], 0, []⟩
  let parsed := st.tuples.map (fun t => PyVal.tuple (t.map convertElem))
  if parsed.isEmpty then Option.none else some (.list parsed)

/-- `parse_sql_result_string` of src/streamlit_app.py: normalize datetime
constructors, then parse list-of-tuple shapes (replacing `Decimal('x')`
and bare `None` first), falling back to the manual scanner and finally to
the original value. -/
def parse_sql_result_string (v : PyVal) : PyVal :=
  match v with
  | .str s =>
    if (stripWs s).isEmpty then v
    else
      let cleaned := stripWs s
      let cs := dtDatetimeSub (cleaned.length + 1)
        (dtDateSub (cleaned.length + 1) cleaned)
      if startsWithL ['['] cs && endsWithL [']'] cs then
        let c2 := noneSub (decimalSub cs)
        match pyLiteralEval c2 with
        | some p => p
        | Option.none =>
          match manualFallback c2 with
          | some p => p
          | Option.none => v
      else if startsWithL ['('] cs && endsWithL [')'] cs then
        let c2 := noneSub (decimalSub ('[' :: cs ++ [']']))
        match pyLiteralEval c2 with
        | some p => p
        | Option.none =>
          match manualFallback c2 with
          | some p => p
          | Option.none => v
      else if containsSub (sL ("Decimal(")) cs || containsSub (sL ("None")) cs
          || containsSub (sL ("datetime")) cs then
        let wrapped := if ¬ startsWithL ['['] cs then '[' :: cs ++ [']'] else cs
        let c2 := noneSub (decimalSub wrapped)
        match pyLiteralEval c2 with
        | some p => p
        | Option.none =>
          match manualFallback c2 with
          | some p => p
          | Option.none => v
      else v
  | _ => v

/-!
## Result materialization — `format_sql_result_to_dataframe`
(src/streamlit_app.py lines 386-911)

A `pandas` DataFrame is modelled as ordered column labels plus rows of
cells.  A raised Python exception is modelled as `Except.error ()`:
exceptions inside the big `try` of `format_sql_result_to_dataframe` reach
its outer `except`, which degrades to the robust string fallback.
-/

structure PyFrame where
  cols : List (List Char)
  rows : List (List PyVal)

/-- Lift an optional value, throwing the modelled Python exception when
absent. -/
def orThrow : Option α → Except Unit α
  | some a => .ok a
  | Option.none => .error ()

/-- Python dict assignment `d[k] = v` (overwrite keeps position). -/
def dictInsert (kvs : List (List Char × PyVal)) (k : List Char) (v : PyVal) :
    List (List Char × PyVal) :=
  if kvs.any (fun p => p.1 = k) then
    kvs.map (fun p => if p.1 = k then (k, v) else p)
  else kvs ++ [(k, v)]

/-- `pd.DataFrame(list_of_dicts)`: columns are the union of the keys in
first-occurrence order; missing cells are NaN. -/
def frameOfDicts (ds : List (List (List Char × PyVal))) : PyFrame :=
  let cols := ds.foldl (fun acc d =>
    d.foldl (fun a p => if a.contains p.1 then a else a ++ [p.1]) acc) []
  { cols := cols,
    rows := ds.map (fun d => cols.map (fun c =>
      match d.find? (fun p => p.1 = c) with
      | some p => p.2
      | Option.none => .none)) }

/-- `pd.DataFrame(list_of_lists, columns=...)`: the width is the longest
row; shorter rows are NaN-padded; a width different from the number of
labels raises. -/
def frameOfLists (rows : List (List PyVal)) (cols : List (List Char)) :
    Except Unit PyFrame :=
  let width := rows.foldl (fun a r => max a r.length) 0
  if rows.isEmpty || width = cols.length then
    .ok { cols := cols,
          rows := rows.map (fun r =>
            r ++ List.replicate (cols.length - r.length) PyVal.none) }
  else .error ()

/-- `pd.DataFrame(dict_of_column_lists)`. -/
def frameOfColumns (cs : List (List Char × List PyVal)) : PyFrame :=
  let n := (cs.map (fun c => c.2.length)).foldl max 0
  { cols := cs.map (fun c => c.1),
    rows := (List.range n).map (fun i =>
      cs.map (fun c => c.2.getD i PyVal.none)) }

/-- One-row, one-column "Result" table. -/
def resultFrame (v : PyVal) : PyFrame := frameOfColumns [(sL ("Result"), [v])]

/-- Is the value Python `None`? -/
def isPyNone : PyVal → Bool
  | .none => true
  | _ => false

/-- `isinstance(v, (int, float, Decimal))` (booleans are ints in Python). -/
def isNumIFD : PyVal → Bool
  | .int _ => true
  | .bool _ => true
  | .float _ _ => true
  | .dec _ _ => true
  | _ => false

/-- `isinstance(v, (int, float))`. -/
def isIntFloat : PyVal → Bool
  | .int _ => true
  | .bool _ => true
  | .float _ _ => true
  | _ => false

/-- `isinstance(v, int)`. -/
def isIntOnly : PyVal → Bool
  | .int _ => true
  | .bool _ => true
  | _ => false

/-- Comma grouping on a reversed digit list. -/
def groupRevDigits : List Char → List Char
  | [] => []
  | [a] => [a]
  | [a, b] => [b, a]
  | [a, b, c] => [c, b, a]
  | a :: b :: c :: d :: rest =>
    groupRevDigits (d :: rest) ++ ',' :: [c, b, a]

/-- Group the decimal digits of a natural number in threes with commas. -/
def groupThousands (n : Nat) : List Char :=
  groupRevDigits (natDigits n).reverse

/-- `f"{n:,}"` for an integer. -/
def intCommaFmt (n : Int) : List Char :=
  (if n < 0 then ['-'] else []) ++ groupThousands n.natAbs

/-- `mantissa / 10^e` rounded to cents, half to even (Python float
formatting with `.2f`). -/
def roundCents (m : Int) (e : Nat) : Int :=
  let num := m * 100
  let den : Int := (10 : Int) ^ e
  let q := Int.fdiv num den
  let r := num - q * den
  if 2 * r < den then q
  else if den < 2 * r then q + 1
  else if q % 2 = 0 then q else q + 1

/-- `f"${float(v):,.2f}"` for a numeric value given as `(m, e)`. -/
def currencyOfScaled (p : Int × Nat) : List Char :=
  let c := roundCents p.1 p.2
  let sign := if c < 0 then sL ("-") else []
  let a := c.natAbs
  '$' :: sign ++ groupThousands (a / 100) ++ '.' ::
    (let f := natDigits (a % 100)
     List.replicate (2 - f.length) '0' ++ f)

/-- `f"${float(value):,.2f}"` on a numeric `PyVal`. -/
def currencyFmt (v : PyVal) : List Char :=
  match pyNum v with
  | some p => currencyOfScaled p
  | Option.none => []

/-- `f"{value:,}"`: comma-grouped formatting; raises (none) on
non-numeric values. -/
def pyCommaFmt : PyVal → Option (List Char)
  | .int n => some (intCommaFmt n)
  | .bool b => some (if b then ['1'] else ['0'])
  | .float m e =>
    some (if e = 0 then intCommaFmt m ++ sL (".0")
          else (if m < 0 then ['-'] else []) ++
            (let ds := natDigits m.natAbs
             let ds2 := List.replicate (e + 1 - ds.length) '0' ++ ds
             groupThousands ((ds2.take (ds2.length - e)).foldl
               (fun a c => a * 10 + (c.toNat - 48)) 0) ++
               '.' :: ds2.drop (ds2.length - e)))
  | .dec m e =>
    some ((if m < 0 then ['-'] else []) ++
      (let ds := natDigits m.natAbs
       let ds2 := List.replicate (e + 1 - ds.length) '0' ++ ds
       if e = 0 then groupThousands m.natAbs
       else groupThousands ((ds2.take (ds2.length - e)).foldl
         (fun a c => a * 10 + (c.toNat - 48)) 0) ++
         '.' :: ds2.drop (ds2.length - e)))
  | _ => Option.none

/-- The 37 column names the code assumes for agent-like wide tables. -/
def agentCols : List (List Char) :=
  [sL ("ID"), sL ("UUID"), sL ("First_Name"), sL ("Last_Name"),
   sL ("Company"), sL ("Phone"), sL ("Email"), sL ("License"), sL ("State"),
   sL ("Years_Experience"), sL ("Total_Sales"), sL ("Total_Value"),
   sL ("Commission_Rate"), sL ("Address"), sL ("City"), sL ("State_Code"),
   sL ("Zip_Code"), sL ("Languages"), sL ("Specialization"), sL ("Rating"),
   sL ("Bio"), sL ("Website"), sL ("Personal_Info_1"),
   sL ("Personal_Info_2"), sL ("Active"), sL ("Hire_Date"),
   sL ("Last_Active"), sL ("Clients_Count"), sL ("Referrals"),
   sL ("Marketing_Budget"), sL ("Lead_Count"), sL ("Conversion_Rate"),
   sL ("Team_Size"), sL ("Contract_End"), sL ("CRM_System"),
   sL ("Social_Media"), sL ("Profile_Image")]

/-- The 20 column names the code assumes for property-like tables. -/
def propertyCols : List (List Char) :=
  [sL ("Property_ID"), sL ("Address"), sL ("City"), sL ("State"),
   sL ("Zip_Code"), sL ("Price"), sL ("Bedrooms"), sL ("Bathrooms"),
   sL ("Square_Feet"), sL ("Lot_Size"), sL ("Year_Built"),
   sL ("Property_Type"), sL ("Status"), sL ("Agent_ID"), sL ("Owner_ID"),
   sL ("Listed_Date"), sL ("Sold_Date"), sL ("Days_On_Market"),
   sL ("Description"), sL ("Features")]

/-- Generic labels `Column_{i+1}` for `i` in `range(n)`. -/
def genericCols1 (n : Nat) : List (List Char) :=
  (List.range n).map (fun i => sL ("Column_") ++ intStr (i + 1))

/-- Truncate to `n` names, or extend with `Column_{i}` (zero-based, the
case-9 extension pattern). -/
def adjustCols0 (names : List (List Char)) (n : Nat) : List (List Char) :=
  if n < names.length then names.take n
  else if names.length < n then
    names ++ ((List.range n).drop names.length).map
      (fun i => sL ("Column_") ++ intStr (Int.ofNat i))
  else names

/-- Truncate to `n` names, or extend with `Column_{i+1}` (one-based, the
case-10 extension pattern). -/
def adjustCols1 (names : List (List Char)) (n : Nat) : List (List Char) :=
  if n < names.length then names.take n
  else if names.length < n then
    names ++ ((List.range n).drop names.length).map
      (fun i => sL ("Column_") ++ intStr (Int.ofNat i + 1))
  else names

/-- `str(item) if item is not None else ''` applied to the cells of a
tuple/list row, or `[str(row)]` for a scalar row. -/
def strRow (row : PyVal) : List PyVal :=
  match row with
  | .tuple xs => xs.map (fun it =>
      if isPyNone it then .str [] else .str (pyStr it))
  | .list xs => xs.map (fun it =>
      if isPyNone it then .str [] else .str (pyStr it))
  | _ => [.str (pyStr row)]

/-- `format_data_for_display` transformation of one column; `none` models
an exception inside the loop, upon which the whole function returns the
original frame. -/
def formatDisplayCol (name : List Char) (cells : List PyVal) :
    Option (List PyVal) :=
  if name = sL ("Phone") || name = sL ("phone") then
    some (cells.map (fun c =>
      match c with
      | .str s => .str (replaceSub (sL ("x")) (sL (" ext. ")) s)
      | _ => .none))
  else if name = sL ("Email") || name = sL ("email") then some cells
  else if name = sL ("Total_Value") || name = sL ("Price") ||
      name = sL ("Commission_Rate") || name = sL ("Conversion_Rate") then
    some (cells.map (fun c =>
      let val := pyStr c
      let f := val.filter (fun ch => ¬ (ch = '.' || ch = '-'))
      if ¬ f.isEmpty && f.all isDigitChar then
        match floatParse val with
        | some p =>
          if (name = sL ("Total_Value") || name = sL ("Price")) &&
              scaledLt (1000, 0) p then .str (currencyOfScaled p)
          else if (name = sL ("Commission_Rate") ||
              name = sL ("Conversion_Rate")) && scaledLt p (100, 0) then
            .str (floatStr p.1 p.2 ++ ['%'])
          else c
        | Option.none => c
      else c))
  else if name = sL ("Address") || name = sL ("address") then
    some (cells.map (fun c =>
      match c with
      | .str s => .str (replaceSub ['\\', 'n'] (sL (", ")) s)
      | _ => .none))
  else if name = sL ("Bio") || name = sL ("Description") ||
      name = sL ("bio") || name = sL ("description") then
    cells.mapM (fun c =>
      if 100 < (pyStr c).length then
        match c with
        | .str s => some (.str (s.take 100 ++ sL ("...")))
        | _ => Option.none
      else some c)
  else if name = sL ("Languages") || name = sL ("languages") ||
      name = sL ("Specialization") || name = sL ("specialization") then
    some (cells.map (fun c =>
      match c with
      | .str s => .str (replaceSub [','] (sL (", ")) s)
      | _ => .none))
  else some cells

/-- Column `i` of a frame. -/
def frameCol (f : PyFrame) (i : Nat) : List PyVal :=
  f.rows.map (fun r => r.getD i PyVal.none)

/-- `format_data_for_display` of src/streamlit_app.py: cosmetic per-column
rewriting; any exception returns the original frame. -/
def format_data_for_display (f : PyFrame) : PyFrame :=
  match (f.cols.enum.mapM (fun p => formatDisplayCol p.2 (frameCol f p.1))) with
  | some newCols =>
    { cols := f.cols,
      rows := (List.range f.rows.length).map (fun r =>
        newCols.map (fun col => col.getD r PyVal.none)) }
  | Option.none => f

/-- `clean_dataframe_for_streamlit`: display formatting, then per column
`fillna('')`, `astype(str)` and replacement of the literal null spellings
by the empty string. -/
def clean_dataframe_for_streamlit (f : PyFrame) : PyFrame :=
  let f1 := format_data_for_display f
  { cols := f1.cols,
    rows := f1.rows.map (fun r => r.map (fun c =>
      let c1 := if isPyNone c then PyVal.str [] else c
      let s := pyStr c1
      if s = sL ("nan") || s = sL ("NaN") || s = sL ("None") ||
          s = sL ("null") || s = sL ("NULL") then PyVal.str []
      else PyVal.str s)) }

/-- `isinstance(v, (tuple, list))`. -/
def isSeqVal : PyVal → Bool
  | .tuple _ => true
  | .list _ => true
  | _ => false

/-- Elements of a tuple/list value. -/
def seqElems : PyVal → List PyVal
  | .tuple xs => xs
  | .list xs => xs
  | _ => []

/-- `isinstance(v, dict)`. -/
def isDictVal : PyVal → Bool
  | .dict _ => true
  | _ => false

/-- An apostrophe as data. -/
def apos : List Char := [sqChar]

/-- One-row "No data" table. -/
def noDataFrame : PyFrame :=
  frameOfColumns [(sL ("Result"), [.str (sL ("No data"))])]

/-- The "query generated but not executed" status table of case 1. -/
def statusFrame (s : List Char) : PyFrame :=
  frameOfColumns
    [(sL ("Status"), [.str (sL ("⚠️ Query Generated But Not Executed"))]),
     (sL ("SQL_Query"), [.str s]),
     (sL ("Suggestion"),
      [.str (sL ("The query was generated successfully but couldn") ++ apos ++
        sL ("t be executed. This might be due to a database connection ") ++
        sL ("issue, query timeout, or data availability. Please try a ") ++
        sL ("simpler query or check your connection."))])]

/-- `pd.DataFrame(data, columns=...)` for a list of row values that may be
scalars (one column) or tuples/lists; mixing the two raises. -/
def frameOfData (rows : List PyVal) (cols : List (List Char)) :
    Except Unit PyFrame :=
  if rows.all (fun r => ¬ isSeqVal r) then
    if cols.length = 1 then
      .ok { cols := cols, rows := rows.map (fun v => [v]) }
    else .error ()
  else if rows.all isSeqVal then
    frameOfLists (rows.map seqElems) cols
  else .error ()

/-- Names used by case 10 for middle-sized rows. -/
def genericCols10 : List (List Char) :=
  [sL ("ID"), sL ("Name"), sL ("Description"), sL ("Value_1"),
   sL ("Value_2"), sL ("Date_1"), sL ("Date_2"), sL ("Status"),
   sL ("Category"), sL ("Notes")]

/-- Names used by case 10 for small rows. -/
def genericCols5 : List (List Char) :=
  [sL ("ID"), sL ("Name"), sL ("Value"), sL ("Status"), sL ("Date")]

/-- The four fallback labels of case 10. -/
def columnFourCols : List (List Char) :=
  [sL ("Column_1"), sL ("Column_2"), sL ("Column_3"), sL ("Column_4")]

/-- The robust string-conversion handler of the outer `except` of
`format_sql_result_to_dataframe` (lines 878-911), applied to the value
`data` held at the moment of the exception. -/
def outerRobust (data : PyVal) : PyFrame :=
  match data with
  | .list rows =>
    if 0 < rows.length then
      if isSeqVal (rows.getD 0 .none) then
        let sdata := rows.map strRow
        let numCols := if sdata.isEmpty then 1 else (sdata.getD 0 []).length
        let names := (List.range numCols).map
          (fun i => sL ("Column_") ++ intStr (Int.ofNat i))
        match frameOfLists sdata names with
        | .ok df => clean_dataframe_for_streamlit df
        | .error _ =>
          frameOfColumns [(sL ("Error"),
            [.str (sL ("Could not process data: ") ++ (pyStr data).take 100 ++
              sL ("..."))])]
      else
        clean_dataframe_for_streamlit
          (frameOfColumns [(sL ("Result"),
            rows.map (fun it => .str (pyStr it)))])
    else
      clean_dataframe_for_streamlit
        (frameOfColumns [(sL ("Result"), [.str (pyStr data)])])
  | _ =>
    clean_dataframe_for_streamlit
      (frameOfColumns [(sL ("Result"), [.str (pyStr data)])])

/-- The second-level `except` chain of case 10 (lines 825-876). -/
def case10Except (data : PyVal) (rows : List PyVal) : PyFrame :=
  if 0 < rows.length then
    let sdata := rows.map strRow
    let numCols := if sdata.isEmpty then 1 else (sdata.getD 0 []).length
    let base :=
      if 35 ≤ numCols || numCols = 37 then agentCols.take numCols
      else if 20 ≤ numCols then propertyCols.take numCols
      else genericCols1 numCols
    let names := adjustCols1 base numCols
    match frameOfLists sdata names with
    | .ok df => clean_dataframe_for_streamlit df
    | .error _ => frameOfColumns [(sL ("Result"), [.str (pyStr data)])]
  else
    frameOfColumns [(sL ("Result"), rows.map (fun it => .str (pyStr it)))]

/-- Case 10 of the materializer: default table construction with smart
column naming, with its private exception chain. -/
def case10Default (data : PyVal) (rows : List PyVal) : PyFrame :=
  if 0 < rows.length && isSeqVal (rows.getD 0 .none) then
    let cleaned := rows.map strRow
    let numCols := if cleaned.isEmpty then 1 else (cleaned.getD 0 []).length
    let base :=
      if 35 ≤ numCols || numCols = 37 then agentCols
      else if 20 ≤ numCols then propertyCols
      else if 10 ≤ numCols then genericCols10
      else if 5 ≤ numCols then genericCols5
      else columnFourCols.take numCols
    let names := adjustCols1 base numCols
    match frameOfLists cleaned names with
    | .ok df => clean_dataframe_for_streamlit df
    | .error _ => case10Except data rows
  else
    if rows.all (fun r => ¬ isSeqVal r && ¬ isDictVal r) then
      clean_dataframe_for_streamlit
        { cols := [sL ("0")], rows := rows.map (fun v => [v]) }
    else if rows.all isDictVal then
      clean_dataframe_for_streamlit
        (frameOfDicts (rows.map (fun r =>
          match r with
          | .dict kvs => kvs
          | _ => [])))
    else case10Except data rows

/-- The body of `format_sql_result_to_dataframe` up to and including case
10; a raised exception carries the `data` value visible to the outer
`except`. -/
def formatCore (data0 : PyVal) (sqlQ uq : List Char) :
    Except PyVal PyFrame := do
  -- Case 1: strings are parsed or answered directly.
  let data ←
    match data0 with
    | .str s =>
      if startsWithL ['['] s || startsWithL ['('] s then
        let parsed := parse_sql_result_string (.str s)
        if pyEquals parsed (.str s) then return resultFrame (.str s)
        else pure parsed
      else if containsAny [sL ("SELECT"), sL ("WITH"), sL ("FROM"),
          sL ("WHERE")] (upperL s) then
        return statusFrame s
      else return resultFrame (.str s)
    | v => pure v
  -- Case 2: absent or non-list data.
  let rows ←
    match data with
    | .list xs => if xs.isEmpty then return noDataFrame else pure xs
    | _ => return noDataFrame
  let dataL := PyVal.list rows
  let row0 := rows.getD 0 .none
  -- Case 3: high-value order queries.
  if containsSub (sL ("highest value")) (lowerL uq) ||
      containsSub (sL ("totalprice")) (lowerL sqlQ) ||
      containsSub (sL ("ORDER BY")) (upperL sqlQ) then
    let len0 ← orThrow (pyLen row0) |>.mapError (fun _ => dataL)
    if 2 ≤ len0 then
      let fr ← rows.mapM (fun row => do
        let oid ← orThrow (pyIndex row 0) |>.mapError (fun _ => dataL)
        let v ← orThrow (pyIndex row 1) |>.mapError (fun _ => dataL)
        let fv : PyVal :=
          if isNumIFD v then .str (currencyFmt v) else .str (pyStr v)
        pure [(sL ("Order ID"), oid), (sL ("Total Value"), fv)])
      return clean_dataframe_for_streamlit (frameOfDicts fr)
  -- Case 4: real-estate keyword queries with monetary-looking first row.
  if containsAny [sL ("price"), sL ("prices"), sL ("sale"), sL ("sales"),
      sL ("properties"), sL ("agent")] (lowerL uq) then
    if 0 < rows.length then
      let len0 ← orThrow (pyLen row0) |>.mapError (fun _ => dataL)
      if 2 ≤ len0 then
        if containsAny [sL ("price"), sL ("sale"), sL ("commission")]
            (lowerL (pyStr row0)) then
          let fr ← rows.mapM (fun row => do
            let items ← orThrow (pyIterate row) |>.mapError (fun _ => dataL)
            pure (items.enum.foldl (fun acc p =>
              let i := p.1
              let value := p.2
              if i = 0 && containsSub (sL ("city")) (lowerL uq) then
                dictInsert acc (sL ("City")) value
              else if containsSub (sL ("price")) (lowerL (pyStr value)) ||
                  (isIntFloat value &&
                    scaledLt (10000, 0) ((pyNum value).getD (0, 0))) then
                let cn := if containsSub (sL ("price")) (lowerL uq) then
                    sL ("Price") else sL ("Value")
                let v2 : PyVal :=
                  if isNumIFD value then .str (currencyFmt value)
                  else .str (pyStr value)
                dictInsert acc cn v2
              else if containsSub (sL ("id")) (lowerL (pyStr value)) ||
                  (i = 0 && isIntOnly value &&
                    scaledLt ((pyNum value).getD (0, 0)) (10000, 0)) then
                dictInsert acc (sL ("ID")) value
              else
                dictInsert acc (sL ("Column_") ++ intStr (Int.ofNat i + 1))
                  value) []))
          return clean_dataframe_for_streamlit (frameOfDicts fr)
  -- Case 5: COUNT queries.
  if containsSub (sL ("COUNT(*)")) (upperL sqlQ) ||
      containsSub (sL ("count(*)")) (lowerL uq) ||
      containsSub (sL ("how many")) (lowerL uq) ||
      containsSub (sL ("quantity")) (lowerL uq) then
    if 0 < rows.length then
      let len0 ← orThrow (pyLen row0) |>.mapError (fun _ => dataL)
      if len0 = 1 then
        let cv ← orThrow (pyIndex row0 0) |>.mapError (fun _ => dataL)
        let cs ← orThrow (pyCommaFmt cv) |>.mapError (fun _ => dataL)
        let label :=
          if containsSub (sL ("table")) (lowerL uq) then
            sL ("Total tables in database")
          else if containsSub (sL ("customer")) (lowerL uq) then
            sL ("Total customers")
          else if containsSub (sL ("order")) (lowerL uq) then
            sL ("Total orders")
          else if containsSub (sL ("sale")) (lowerL uq) then
            sL ("Total sales")
          else sL ("Total records")
        return frameOfDicts
          [[(sL ("Description"), .str label), (sL ("Count"), .str cs)]]
  -- Case 6: CURRENT_DATABASE.
  if containsSub (sL ("CURRENT_DATABASE")) (upperL sqlQ) then
    let fr ← frameOfData rows [sL ("Database")] |>.mapError (fun _ => dataL)
    return fr
  -- Case 7: table-listing metadata queries.
  if (containsSub (sL ("INFORMATION_SCHEMA.TABLES")) (upperL sqlQ) &&
      containsSub (sL ("TABLE_NAME")) (upperL sqlQ)) ||
      containsSub (sL ("SHOW TABLES")) (upperL sqlQ) then
    if 0 < rows.length then
      let len0 ← orThrow (pyLen row0) |>.mapError (fun _ => dataL)
      if len0 = 2 then
        let fr ← rows.enum.mapM (fun p => do
          let tn ← orThrow (pyIndex p.2 0) |>.mapError (fun _ => dataL)
          let ty ← orThrow (pyIndex p.2 1) |>.mapError (fun _ => dataL)
          pure [(sL ("#"), PyVal.int (Int.ofNat p.1 + 1)),
                (sL ("Table"), tn), (sL ("Type"), ty)])
        return clean_dataframe_for_streamlit (frameOfDicts fr)
      else if 2 ≤ len0 then
        let fr ← rows.enum.mapM (fun p => do
          let tn ← orThrow (pyIndex p.2 1) |>.mapError (fun _ => dataL)
          pure [(sL ("#"), PyVal.int (Int.ofNat p.1 + 1)),
                (sL ("Table"), tn)])
        return clean_dataframe_for_streamlit (frameOfDicts fr)
  -- Case 8: region queries over two-column rows.
  if containsSub (sL ("region")) (lowerL uq) ||
      containsSub (sL ("regions")) (lowerL uq) then
    if 0 < rows.length then
      let len0 ← orThrow (pyLen row0) |>.mapError (fun _ => dataL)
      if len0 = 2 then
        let metric :=
          if containsSub (sL ("average")) (lowerL uq) ||
              containsSub (sL ("avg")) (lowerL sqlQ) then
            sL ("Average Revenue")
          else if containsSub (sL ("sum")) (lowerL uq) ||
              containsSub (sL ("total")) (lowerL uq) then
            sL ("Total Revenue")
          else if containsSub (sL ("count")) (lowerL sqlQ) then sL ("Count")
          else sL ("Value")
        let fr ← rows.mapM (fun row => do
          let rg ← orThrow (pyIndex row 0) |>.mapError (fun _ => dataL)
          let v ← orThrow (pyIndex row 1) |>.mapError (fun _ => dataL)
          let vf : PyVal :=
            if isNumIFD v then .str (currencyFmt v) else .str (pyStr v)
          pure [(sL ("Region"), rg), (metric, vf)])
        return clean_dataframe_for_streamlit (frameOfDicts fr)
  -- Case 9: simple table queries named after a known table.
  if containsAny [sL ("agents"), sL ("properties"), sL ("locations"),
      sL ("owners"), sL ("transactions")] (lowerL uq) then
    let cleaned := rows.map strRow
    if ¬ cleaned.isEmpty then
      let numCols :=
        if (cleaned.getD 0 []).isEmpty then 1 else (cleaned.getD 0 []).length
      let names :=
        if (containsSub (sL ("agent")) (lowerL uq) && 35 ≤ numCols) ||
            numCols = 37 then
          adjustCols0 agentCols numCols
        else if containsSub (sL ("propert")) (lowerL uq) && 20 ≤ numCols then
          adjustCols0 propertyCols numCols
        else genericCols1 numCols
      match frameOfLists cleaned names with
      | .ok df => return clean_dataframe_for_streamlit df
      | .error _ =>
        let fr := rows.enum.map (fun p =>
          [(sL ("Row"), PyVal.int (Int.ofNat p.1 + 1)),
           (sL ("Data"), PyVal.str (pyStr p.2))])
        return clean_dataframe_for_streamlit (frameOfDicts fr)
    else return noDataFrame
  -- Case 10: default construction.
  return case10Default dataL rows

/-- `format_sql_result_to_dataframe` of src/streamlit_app.py. -/
def format_sql_result_to_dataframe (data0 : PyVal) (sqlQ uq : List Char) :
    PyFrame :=
  match formatCore data0 sqlQ uq with
  | .ok f => f
  | .error d => outerRobust d

/-!
## Query Orchestrator — `process_query`
(src/src/agent/nlp_agent.py lines 193-451)

The LLM chain and the database are external collaborators: an environment
provides the chain's intermediate steps and final result, and an oracle
`dbRun` that either returns rows or fails with an error message
(`self.db.run` raising).  `process_query` is embedded as a function from
the environment and the user question to the returned dictionary together
with the trace of every SQL string submitted to `dbRun`, in order.
-/

structure AgentEnv where
  dbRun : List Char → Except (List Char) PyVal
  chainSteps : List PyVal
  chainResult : PyVal

/-- The outcome dictionary of `process_query` (the fields the claims
observe). -/
structure PQOut where
  success : Bool
  result : PyVal := .none
  error : List Char := []
  sqlQuery : List Char := []
  technicalError : List Char := []

/-- The `table_queries` metadata triggers of `_handle_metadata_query`. -/
def table_queries : List (List Char) :=
  [sL ("show tables"), sL ("show me tables"), sL ("show all tables"),
   sL ("show me all tables"), sL ("list tables"), sL ("list all tables"),
   sL ("what tables"), sL ("which tables"), sL ("display tables"),
   sL ("get tables"), sL ("tables list")]

/-- The direct metadata statement of `_handle_metadata_query`. -/
def METADATA_SQL : List Char :=
  sL ("SELECT TABLE_NAME, TABLE_TYPE FROM INFORMATION_SCHEMA.TABLES ") ++
  sL ("WHERE TABLE_SCHEMA = CURRENT_SCHEMA() ORDER BY TABLE_NAME")

/-- `_handle_metadata_query`: detect a table-listing question, execute the
fixed metadata statement directly. -/
def handleMetadataQuery (env : AgentEnv) (q : List Char) :
    Option (PQOut × List (List Char)) :=
  if table_queries.any (fun p => containsSub p (stripWs (lowerL q))) then
    some (match env.dbRun METADATA_SQL with
      | .ok v =>
        ({ success := true, result := v, sqlQuery := METADATA_SQL },
         [METADATA_SQL])
      | .error e =>
        ({ success := false, error := sL ("Error retrieving tables: ") ++ e },
         [METADATA_SQL]))
  else Option.none

/-- The SQL-candidate extraction from the first intermediate step:
`step.get("sql_cmd") or step.get("query") or step.get("sql") or str(step)`,
or the initial `"N/A"` when there are no steps. -/
def extractSqlQuery (env : AgentEnv) : PyVal :=
  match env.chainSteps with
  | [] => .str (sL ("N/A"))
  | step :: _ =>
    match step with
    | .dict kvs =>
      let get := fun (k : List Char) =>
        match kvs.find? (fun p => p.1 = k) with
        | some p => p.2
        | Option.none => PyVal.none
      let a := get (sL ("sql_cmd"))
      let b := if pyTruthy a then a else get (sL ("query"))
      let c := if pyTruthy b then b else get (sL ("sql"))
      if pyTruthy c then c else .str (pyStr step)
    | _ => .str (pyStr step)

/-- The direct-execution guard:
`cleaned.upper().startswith(("SELECT", "SHOW", "DESCRIBE"))`. -/
def execGuard (s : List Char) : Bool :=
  startsWithAny [sL ("SELECT"), sL ("SHOW"), sL ("DESCRIBE")] (upperL s)

/-- `re.search(r"Object '([^']+)' does not exist", e)`: the first table
name quoted in the executor's error text. -/
def findObjectName : List Char → Option (List Char)
  | [] => Option.none
  | c :: rest =>
    let pat := sL ("Object ") ++ apos
    if pat.isPrefixOf (c :: rest) then
      let r0 := (c :: rest).drop pat.length
      let nm := r0.takeWhile (fun d => d ≠ sqChar)
      if ¬ nm.isEmpty &&
          (apos ++ sL (" does not exist")).isPrefixOf (r0.drop nm.length) then
        some nm
      else findObjectName rest
    else findObjectName rest

/-- `_handle_sql_error`: classify the executor failure into a
user-friendly message, keeping the raw text as a technical field. -/
def handle_sql_error (e : List Char) (sqlq : List Char) : PQOut :=
  let msg :=
    if containsSub (sL ("does not exist")) e ||
        containsSub (sL ("not authorized")) e then
      match findObjectName e with
      | some t =>
        sL ("❌ The table ") ++ apos ++ lowerL t ++ apos ++
        sL (" doesn") ++ apos ++ sL ("t exist in your database or you don") ++
        apos ++ sL ("t have permission to access it.")
      | Option.none =>
        sL ("❌ The requested table doesn") ++ apos ++
        sL ("t exist in your database or you don") ++ apos ++
        sL ("t have permission to access it.")
    else if containsSub (sL ("SQL compilation error")) e then
      sL ("❌ There was an error in the SQL query. The database ") ++
      sL ("structure might be different than expected.")
    else if containsSub (sL ("connection")) (lowerL e) then
      sL ("❌ Database connection error. Please check your connection ") ++
      sL ("settings.")
    else if containsSub (sL ("timeout")) (lowerL e) then
      sL ("❌ The query took too long to execute. Try a simpler query ") ++
      sL ("or contact your administrator.")
    else
      sL ("❌ Database error: ") ++ e.take 100 ++
      (if 100 < e.length then sL ("...") else [])
  { success := false, error := msg, technicalError := e, sqlQuery := sqlq }

/-- The fallback scan over `intermediate_steps` for an embedded result
field: the first truthy value under one of the four keys that differs from
the chain's final result. -/
def scanStepsForData (env : AgentEnv) : PyVal :=
  match env.chainSteps.findSome? (fun step =>
    match step with
    | .dict kvs =>
      [sL ("sql_result"), sL ("result"), sL ("data"),
       sL ("query_result")].findSome? (fun k =>
        match kvs.find? (fun p => p.1 = k) with
        | some p =>
          if pyTruthy p.2 && ¬ pyEquals p.2 env.chainResult then some p.2
          else Option.none
        | Option.none => Option.none)
    | _ => Option.none) with
  | some v => v
  | Option.none => .none

/-- The SHOW TABLES special scan: the first step dict holding a
`sql_result` key, whatever its value. -/
def scanStepsShowTables (env : AgentEnv) : PyVal :=
  match env.chainSteps.findSome? (fun step =>
    match step with
    | .dict kvs =>
      match kvs.find? (fun p => p.1 = sL ("sql_result")) with
      | some p => some p.2
      | Option.none => Option.none
    | _ => Option.none) with
  | some v => v
  | Option.none => .none

/-- The "query generated but no data" user message of `process_query`. -/
def noDataMsg : List Char :=
  sL ("Query was generated successfully but couldn") ++ apos ++
  sL ("t retrieve data. This might be due to:") ++
  sL ("\n• Database connection issues") ++
  sL ("\n• Query complexity or timeout") ++
  sL ("\n• Data availability") ++
  sL ("\n• Column or table access permissions")

/-- The guarded direct-execution attempt shared by step 3 and the last
resort of `process_query`: a candidate runs against the database only when
its cleaned text is nonempty and starts with SELECT/SHOW/DESCRIBE.  The
result is the rows (`some v`), the not-attempted marker (`none`), or the
early error return; the second component is the trace of submissions. -/
def runGuardedExec (env : AgentEnv) (cleaned : List Char) :
    Except PQOut (Option PyVal) × List (List Char) :=
  if ¬ cleaned.isEmpty && execGuard cleaned then
    match env.dbRun cleaned with
    | .ok v => (.ok (some v), [cleaned])
    | .error e => (.error (handle_sql_error e cleaned), [cleaned])
  else (.ok Option.none, [])

/-- The final packaging of `process_query`: a string result still looking
like SQL text, or no result at all, yields the "no data" failure; anything
else is a success. -/
def finalizeOutcome (sqlQuery actual3 : PyVal) : PQOut :=
  let finalSql :=
    match sqlQuery with
    | .str s => s
    | v => pyStr v
  let onlySqlText :=
    match actual3 with
    | .str s =>
      containsAny [sL ("SELECT"), sL ("WITH"), sL ("FROM"), sL ("WHERE")]
        (upperL s)
    | _ => false
  if isPyNone actual3 || onlySqlText then
    { success := false, error := noDataMsg, sqlQuery := finalSql }
  else
    { success := true, result := actual3, sqlQuery := finalSql }

/-- The last-resort step of `process_query`: when nothing was obtained,
clean the chain's final answer and execute it behind the same guard,
keeping the final answer itself when the guard rejects it. -/
def lastResortStep (env : AgentEnv) (actual2 : PyVal)
    (tr0 : List (List Char)) : Except PQOut PyVal × List (List Char) :=
  if isPyNone actual2 then
    match env.chainResult with
    | .str f =>
      let r := runGuardedExec env (clean_sql_response f)
      (match r.1 with
       | .ok (some v) => .ok v
       | .ok Option.none => .ok (.str f)
       | .error out => .error out,
       tr0 ++ r.2)
    | other => (.ok other, tr0)
  else (.ok actual2, tr0)

/-- Steps 4-7 of `process_query` after the direct-execution attempt:
intermediate-steps fallback, SHOW TABLES special case, executing the final
answer as a last resort, and final packaging. -/
def processTail (env : AgentEnv) (sqlQuery : PyVal) (actual0 : PyVal)
    (tr0 : List (List Char)) : PQOut × List (List Char) :=
  let actual1 :=
    if isPyNone actual0 && ¬ env.chainSteps.isEmpty then
      scanStepsForData env
    else actual0
  let showTablesStep : Except PQOut PyVal :=
    if isPyNone actual1 && pyTruthy sqlQuery then
      match sqlQuery with
      | .str s =>
        if containsSub (sL ("SHOW TABLES")) (upperL s) &&
            ¬ env.chainSteps.isEmpty then
          .ok (scanStepsShowTables env)
        else .ok actual1
      | _ =>
        -- `sql_query.upper()` raises AttributeError; the outer
        -- `except` of `process_query` returns `str(e)` as the error.
        .error { success := false,
                 error := sL ("AttributeError: upper"), result := .none }
    else .ok actual1
  match showTablesStep with
  | .error out => (out, tr0)
  | .ok actual2 =>
    let lr := lastResortStep env actual2 tr0
    match lr.1 with
    | .error out => (out, lr.2)
    | .ok actual3 => (finalizeOutcome sqlQuery actual3, lr.2)

/-- The direct-execution attempt of `process_query` on the extracted
candidate. -/
def directAttempt (env : AgentEnv) (sqlQuery : PyVal) :
    Except PQOut (Option PyVal) × List (List Char) :=
  match sqlQuery with
  | .str s => runGuardedExec env (clean_sql_response s)
  | _ => (.ok Option.none, [])

/-- `process_query` of src/src/agent/nlp_agent.py, returning the outcome
and the trace of SQL strings submitted to the executor. -/
def process_query (env : AgentEnv) (q : List Char) : PQOut × List (List Char) :=
  match handleMetadataQuery env q with
  | some r => r
  | Option.none =>
    let sqlQuery := extractSqlQuery env
    let direct := directAttempt env sqlQuery
    match direct.1 with
    | .error out => (out, direct.2)
    | .ok d0 =>
      let actual0 : PyVal :=
        match d0 with
        | some v => v
        | Option.none => .none
      processTail env sqlQuery actual0 direct.2

/-!
## Remaining wrappers used by the claims
-/

/-- `isinstance(v, str)`. -/
def isStrVal : PyVal → Bool
  | .str _ => true
  | _ => false

/-- `clean_sql_response` on an arbitrary Python value: the function begins
with `if not isinstance(sql_text, str): return ""`. -/
def clean_sql_response_py (v : PyVal) : List Char :=
  match v with
  | .str s => clean_sql_response s
  | _ => []

/-- The rewriting inside the `try` of `translate_to_real_sql`: the first
`re.sub` raises `TypeError` on a non-string argument, so the whole rewrite
either completes on a string or fails before changing anything. -/
def tryRealRewrite : PyVal → Except Unit (List Char)
  | .str s => .ok (realColumnPass (realTablePass s))
  | _ => .error ()

/-- `translate_to_real_sql` on an arbitrary Python value: falsy inputs are
returned at the top, and the `except` branch returns the original input
whenever the rewrite raises. -/
def translate_to_real_sql_py (v : PyVal) : PyVal :=
  if ¬ pyTruthy v then v
  else
    match tryRealRewrite v with
    | .ok r => .str r
    | .error _ => v

/-- Is a replacement list ordered with the longest source name first? -/
def isSortedLenDesc : List (List Char × List Char) → Bool
  | [] => true
  | [_] => true
  | p :: q :: rest =>
    decide (q.1.length ≤ p.1.length) && isSortedLenDesc (q :: rest)

/-- The five obfuscated bare column names whose translation does not
round-trip (their real bare name translates back to a different
obfuscated name because another table's longer qualified entry wins). -/
def roundTripBadColumns : List (List Char) :=
  [sL ("item_id"), sL ("area_id"), sL ("rep_id"),
   sL ("average_deal_value"), sL ("holder_id")]

/-- A single-identifier statement over an obfuscated table and column. -/
def roundTripStatement (t c : List Char) : List Char :=
  sL ("SELECT ") ++ c ++ sL (" FROM ") ++ t

/-- Round trip through the translator pair. -/
def roundTrip (s : List Char) : List Char :=
  translate_to_obfuscated_sql (translate_to_real_sql s)

/-- No two adjacent spaces. -/
def noDoubleSpace : List Char → Bool
  | [] => true
  | [_] => true
  | a :: b :: rest => ¬ (a = ' ' && b = ' ') && noDoubleSpace (b :: rest)

/-- Inputs on which `clean_sql_response` is the identity: a nonempty
single line, free of backticks, all whitespace being single interior
spaces, starting (case-insensitively) with a recognized SQL statement
keyword. -/
def passThroughInput (s : List Char) : Bool :=
  s.all (fun c => ¬ c = btChar) &&
  s.all (fun c => ¬ isWsChar c || c = ' ') &&
  noDoubleSpace s &&
  (match s with
   | [] => false
   | c :: _ => ¬ (c = ' ')) &&
  (match s.getLast? with
   | some d => ¬ (d = ' ')
   | Option.none => false) &&
  startsWithAny sqlStartKeywords (upperL s)

/-- Whitespace-free SQL words, one of which occurs in every clause keyword
of the line filter. -/
def sqlWordSet : List (List Char) :=
  [sL ("FROM"), sL ("WHERE"), sL ("AND"), sL ("OR"), sL ("GROUP"),
   sL ("HAVING"), sL ("JOIN")]

/-- Both ends of a list are free of whitespace. -/
def headTailNonWs (l : List Char) : Bool :=
  (match l.head? with
   | some c => ¬ isWsChar c
   | Option.none => true) &&
  (match l.getLast? with
   | some d => ¬ isWsChar d
   | Option.none => true)

/-- Input of the C4 counterexample: a fence- and backtick-free word that is
not SQL. -/
def c4Free : List Char := sL ("hello")

/-- Input of the C4 non-idempotence counterexample: a SELECT line with a
trailing backtick, followed by a non-SQL line. -/
def c4IdemInput : List Char := sL ("SELECT a") ++ [btChar, '\n'] ++ sL ("zzz")

/-- Input of the C5 counterexample: a line with interior backticks that is
kept by the clause-keyword filter. -/
def c5CtrInput : List Char :=
  sL ("x") ++ [btChar] ++ sL ("x") ++ [btChar] ++ sL (" FROM t")

/-!
## String lemmas for the extractor proofs
-/

theorem isPrefixOfIff {p s : List Char} : p.isPrefixOf s = true ↔ p <+: s :=
  List.isPrefixOf_iff_prefix

theorem isSuffixOfIff {p s : List Char} : p.isSuffixOf s = true ↔ p <:+ s :=
  List.isSuffixOf_iff_suffix

theorem dropWhile_head_not {p : Char → Bool} {l r : List Char}
    (h : l.dropWhile p = r) {c : Char} (hc : r.head? = some c) :
    p c = false := by
  induction l with
  | nil => subst h; cases hc
  | cons a t ih =>
    rw [List.dropWhile_cons] at h
    split at h
    · exact ih h
    · next hpa =>
      subst h
      cases hc
      simpa using hpa

theorem rstripWsPre (l : List Char) : rstripWs l <+: l := by
  unfold rstripWs
  obtain ⟨s, hs⟩ : List.dropWhile isWsChar l.reverse <:+ l.reverse :=
    List.dropWhile_suffix _
  exact ⟨s.reverse, by rw [← List.reverse_append, hs, List.reverse_reverse]⟩

theorem headOfPre {p m : List Char} (h : p <+: m) {c : Char}
    (hc : p.head? = some c) : m.head? = some c := by
  obtain ⟨t, ht⟩ := h
  rw [← ht, List.head?_append, hc, Option.or_some]

theorem stripWs_head_not {l : List Char} {c : Char}
    (hc : (stripWs l).head? = some c) : isWsChar c = false := by
  have h2 : (lstripWs l).head? = some c := headOfPre (rstripWsPre (lstripWs l)) hc
  exact dropWhile_head_not (rfl : List.dropWhile isWsChar l = lstripWs l) h2

theorem stripWs_last_not {l : List Char} {d : Char}
    (hd : (stripWs l).getLast? = some d) : isWsChar d = false := by
  have h2 : (((lstripWs l).reverse.dropWhile isWsChar).reverse).getLast? = some d := hd
  rw [List.getLast?_reverse] at h2
  exact dropWhile_head_not rfl h2

theorem stripWs_headTail (l : List Char) :
    headTailNonWs (stripWs l) = true := by
  unfold headTailNonWs
  rw [Bool.and_eq_true]
  constructor
  · cases hh : (stripWs l).head? with
    | none => rfl
    | some c => simpa using stripWs_head_not hh
  · cases hh : (stripWs l).getLast? with
    | none => rfl
    | some d => simpa using stripWs_last_not hh

theorem stripWs_eq_self {l : List Char} (h : headTailNonWs l = true) :
    stripWs l = l := by
  unfold headTailNonWs at h
  rw [Bool.and_eq_true] at h
  obtain ⟨h1, h2⟩ := h
  cases l with
  | nil => rfl
  | cons c t =>
    have hc : isWsChar c = false := by
      rw [List.head?_cons] at h1
      simpa using h1
    have hl : lstripWs (c :: t) = c :: t := by
      unfold lstripWs
      rw [List.dropWhile_cons, if_neg (by simp [hc])]
    cases hg : (c :: t).getLast? with
    | none => exact absurd (List.getLast?_eq_none_iff.mp hg) (by simp)
    | some d =>
      have hd : isWsChar d = false := by
        rw [hg] at h2
        simpa using h2
      have hr : rstripWs (c :: t) = c :: t := by
        unfold rstripWs
        cases hrev : (c :: t).reverse with
        | nil => simp at hrev
        | cons e r =>
          have he : e = d := by
            have h3 : (c :: t).reverse.head? = (c :: t).getLast? :=
              List.head?_reverse _
            rw [hrev, hg] at h3
            exact Option.some.inj h3
          rw [List.dropWhile_cons, if_neg (by simp [he, hd]), ← hrev,
            List.reverse_reverse]
      show rstripWs (lstripWs (c :: t)) = c :: t
      rw [hl, hr]

theorem stripWs_length_le (l : List Char) : (stripWs l).length ≤ l.length := by
  have h1 : (stripWs l).length ≤ (lstripWs l).length :=
    (rstripWsPre (lstripWs l)).length_le
  have h3 : lstripWs l <:+ l := List.dropWhile_suffix _
  exact Nat.le_trans h1 h3.length_le

theorem lineStripLoop_id {l : List Char} (h : startsWithL [btChar] l = false)
    (n : Nat) : lineStripLoop (n + 1) l = l := by
  simp [lineStripLoop, h]

theorem lineStripLoop_spec : ∀ (fuel : Nat) (l : List Char), l.length < fuel →
    headTailNonWs l = true →
    lineStripLoop fuel l = [] ∨
      (headTailNonWs (lineStripLoop fuel l) = true ∧
       (lineStripLoop fuel l).head? ≠ some btChar) := by
  intro fuel
  induction fuel with
  | zero => intro l hl _; exact absurd hl (Nat.not_lt_zero _)
  | succ n ih =>
    intro l hl hht
    cases hbt : startsWithL [btChar] l with
    | false =>
      have hres : lineStripLoop (n + 1) l = l := by
        simp [lineStripLoop, hbt]
      rw [hres]
      cases l with
      | nil => exact Or.inl rfl
      | cons c t =>
        refine Or.inr ⟨hht, ?_⟩
        have hcb : ¬ c = btChar := by
          intro he
          subst he
          simp [startsWithL, List.isPrefixOf] at hbt
        rw [List.head?_cons]
        intro he
        exact hcb (Option.some.inj he)
    | true =>
      cases l with
      | nil => simp [startsWithL, List.isPrefixOf] at hbt
      | cons c t =>
        have hres : lineStripLoop (n + 1) (c :: t) =
            lineStripLoop n (stripWs ((c :: t).drop 1)) := by
          simp [lineStripLoop, hbt]
        rw [hres]
        have hlen : (stripWs ((c :: t).drop 1)).length < n := by
          have h1 : (stripWs t).length ≤ t.length := stripWs_length_le t
          have h2 : t.length < n := by
            simp [List.length_cons] at hl
            omega
          calc (stripWs ((c :: t).drop 1)).length = (stripWs t).length := rfl
            _ ≤ t.length := h1
            _ < n := h2
        exact ih (stripWs ((c :: t).drop 1)) hlen (stripWs_headTail _)

theorem cleanLine_spec (x : List Char) :
    cleanLine x = [] ∨
      (headTailNonWs (cleanLine x) = true ∧
       (cleanLine x).head? ≠ some btChar) := by
  unfold cleanLine
  exact lineStripLoop_spec (x.length + 1) (stripWs x)
    (Nat.lt_succ_of_le (stripWs_length_le x)) (stripWs_headTail x)

theorem startsWith_false_notMem {pat s : List Char} {c : Char}
    (hc : c ∈ pat) (hs : c ∉ s) : startsWithL pat s = false := by
  cases h : startsWithL pat s with
  | false => rfl
  | true =>
    obtain ⟨u, hu⟩ := isPrefixOfIff.mp h
    exact absurd (hu ▸ List.mem_append_left u hc) hs

theorem endsWith_false_notMem {pat s : List Char} {c : Char}
    (hc : c ∈ pat) (hs : c ∉ s) : endsWithL pat s = false := by
  cases h : endsWithL pat s with
  | false => rfl
  | true =>
    obtain ⟨u, hu⟩ := isSuffixOfIff.mp h
    exact absurd (hu ▸ List.mem_append_right u hc) hs

theorem splitOnChar_eq_single {sep : Char} : ∀ {s : List Char},
    (∀ c ∈ s, ¬ c = sep) → splitOnChar sep s = [s] := by
  intro s
  induction s with
  | nil => intro _; rfl
  | cons c t ih =>
    intro h
    have hc : ¬ c = sep := h c (List.mem_cons_self _ _)
    have ht := ih (fun d hd => h d (List.mem_cons_of_mem c hd))
    simp only [splitOnChar]
    rw [if_neg hc, ht]

theorem collapseWsAux_id : ∀ (s : List Char),
    s.all (fun c => ¬ isWsChar c || c = ' ') = true →
    noDoubleSpace s = true →
    ∀ b : Bool, (b = true → s.head? ≠ some ' ') →
    collapseWsAux s b = s := by
  intro s
  induction s with
  | nil => intro _ _ b _; rfl
  | cons c t ih =>
    intro hall hnd b hb
    rw [List.all_cons, Bool.and_eq_true] at hall
    obtain ⟨hc, ht⟩ := hall
    have hndt : noDoubleSpace t = true := by
      cases t with
      | nil => rfl
      | cons x r =>
        have he : noDoubleSpace (c :: x :: r) =
            ((¬ (c = ' ' && x = ' ') : Bool) && noDoubleSpace (x :: r)) := rfl
        rw [he, Bool.and_eq_true] at hnd
        exact hnd.2
    cases hw : isWsChar c with
    | true =>
      have hcs : c = ' ' := by
        rw [Bool.or_eq_true] at hc
        rcases hc with h1 | h2
        · rw [hw] at h1
          exact absurd rfl (of_decide_eq_true h1)
        · exact of_decide_eq_true h2
      subst hcs
      have hbf : b = false := by
        cases b with
        | false => rfl
        | true => exact absurd (rfl : (' ' :: t).head? = some ' ') (hb rfl)
      subst hbf
      have hth : t.head? ≠ some ' ' := by
        cases t with
        | nil => simp
        | cons x r =>
          simp only [List.head?_cons, ne_eq, Option.some.injEq]
          intro hxs
          subst hxs
          have hfalse : noDoubleSpace (' ' :: ' ' :: r) = false := rfl
          rw [hfalse] at hnd
          exact Bool.false_ne_true hnd
      have hstep : collapseWsAux (' ' :: t) false = ' ' :: collapseWsAux t true := rfl
      rw [hstep, ih ht hndt true (fun _ => hth)]
    | false =>
      have hstep : collapseWsAux (c :: t) b = c :: collapseWsAux t false := by
        simp [collapseWsAux, hw]
      rw [hstep, ih ht hndt false (fun hf => absurd hf Bool.false_ne_true)]

theorem toUpper_ws {c : Char} (h : isWsChar c = true) : toUpperChar c = c := by
  unfold isWsChar at h
  simp only [Bool.or_eq_true, decide_eq_true_eq] at h
  rcases h with ((((h | h) | h) | h) | h) | h <;> subst h <;> decide

theorem preUpCollapse : ∀ (kw : List Char),
    kw.all (fun k => ¬ isWsChar k) = true →
    ∀ (x : List Char) (b : Bool), kw <+: upperL x →
      kw <+: upperL (collapseWsAux x b) := by
  intro kw
  induction kw with
  | nil => intro _ x b _; exact List.nil_prefix
  | cons k kw2 ih =>
    intro hall x b hpre
    rw [List.all_cons, Bool.and_eq_true] at hall
    obtain ⟨hk0, hall2⟩ := hall
    have hk : isWsChar k = false := by simpa using hk0
    cases x with
    | nil => exact absurd hpre (by simp [upperL, List.prefix_nil])
    | cons c t =>
      have hup : upperL (c :: t) = toUpperChar c :: upperL t := rfl
      rw [hup, List.cons_prefix_cons] at hpre
      obtain ⟨hkc, hpre2⟩ := hpre
      have hcw : isWsChar c = false := by
        cases hcw0 : isWsChar c with
        | false => rfl
        | true =>
          exfalso
          rw [hkc, toUpper_ws hcw0] at hk
          rw [hk] at hcw0
          exact Bool.false_ne_true hcw0
      have hcol : collapseWsAux (c :: t) b = c :: collapseWsAux t false := by
        simp [collapseWsAux, hcw]
      rw [hcol]
      have hup2 : upperL (c :: collapseWsAux t false) =
          toUpperChar c :: upperL (collapseWsAux t false) := rfl
      rw [hup2, List.cons_prefix_cons]
      exact ⟨hkc, ih hall2 t false hpre2⟩

theorem infUpCollapse : ∀ (w : List Char),
    w.all (fun k => ¬ isWsChar k) = true →
    ∀ (x : List Char) (b : Bool), w <:+: upperL x →
      w <:+: upperL (collapseWsAux x b) := by
  intro w hall x
  induction x with
  | nil => intro b h; exact h
  | cons c t ih =>
    intro b h
    have hup : upperL (c :: t) = toUpperChar c :: upperL t := rfl
    rw [hup, List.infix_cons_iff] at h
    cases hcw : isWsChar c with
    | true =>
      have hinf : w <:+: upperL t := by
        rcases h with hp | hi
        · cases w with
          | nil => exact List.nil_infix
          | cons k w2 =>
            rw [List.cons_prefix_cons] at hp
            obtain ⟨hkc, _⟩ := hp
            rw [List.all_cons, Bool.and_eq_true] at hall
            obtain ⟨hk0, _⟩ := hall
            exfalso
            have hk : isWsChar k = false := by simpa using hk0
            rw [hkc, toUpper_ws hcw] at hk
            rw [hk] at hcw
            exact Bool.false_ne_true hcw
        · exact hi
      have hrec : w <:+: upperL (collapseWsAux t true) := ih true hinf
      have hcol : collapseWsAux (c :: t) b =
          if b then collapseWsAux t true else ' ' :: collapseWsAux t true := by
        simp [collapseWsAux, hcw]
      rw [hcol]
      cases b with
      | true => simpa using hrec
      | false =>
        have hif : (if (false : Bool) then collapseWsAux t true
            else ' ' :: collapseWsAux t true) = ' ' :: collapseWsAux t true := by
          simp
        rw [hif]
        have hup2 : upperL (' ' :: collapseWsAux t true) =
            toUpperChar ' ' :: upperL (collapseWsAux t true) := rfl
        rw [hup2]
        exact List.infix_cons_iff.mpr (Or.inr hrec)
    | false =>
      have hcol : collapseWsAux (c :: t) b = c :: collapseWsAux t false := by
        simp [collapseWsAux, hcw]
      rw [hcol]
      have hup2 : upperL (c :: collapseWsAux t false) =
          toUpperChar c :: upperL (collapseWsAux t false) := rfl
      rw [hup2]
      rcases h with hp | hi
      · cases w with
        | nil => exact List.nil_infix
        | cons k w2 =>
          rw [List.cons_prefix_cons] at hp
          obtain ⟨hkc, hp2⟩ := hp
          have hall2 : w2.all (fun k => ¬ isWsChar k) = true := by
            rw [List.all_cons, Bool.and_eq_true] at hall
            exact hall.2
          refine List.infix_cons_iff.mpr (Or.inl ?_)
          rw [List.cons_prefix_cons]
          exact ⟨hkc, preUpCollapse w2 hall2 t false hp2⟩
      · exact List.infix_cons_iff.mpr (Or.inr (ih false hi))

theorem containsSub_iff_inf {pat : List Char} : ∀ {s : List Char},
    containsSub pat s = true ↔ pat <:+: s := by
  intro s
  induction s with
  | nil =>
    constructor
    · intro h
      rw [List.infix_nil]
      exact List.isEmpty_iff.mp h
    · intro h
      rw [List.infix_nil] at h
      subst h
      rfl
  | cons c t ih =>
    constructor
    · intro h
      have h2 : (pat.isPrefixOf (c :: t) || containsSubAux pat t) = true := h
      rw [Bool.or_eq_true] at h2
      rw [List.infix_cons_iff]
      rcases h2 with h3 | h3
      · exact Or.inl (isPrefixOfIff.mp h3)
      · exact Or.inr (ih.mp h3)
    · intro h
      rw [List.infix_cons_iff] at h
      show (pat.isPrefixOf (c :: t) || containsSubAux pat t) = true
      rw [Bool.or_eq_true]
      rcases h with h3 | h3
      · exact Or.inl (isPrefixOfIff.mpr h3)
      · exact Or.inr (ih.mpr h3)

theorem joinLines_pre (l : List Char) (ls : List (List Char)) :
    l <+: joinLines (l :: ls) := by
  cases ls with
  | nil => exact List.prefix_rfl
  | cons m r =>
    show l <+: l ++ ' ' :: joinLines (m :: r)
    exact List.prefix_append _ _

theorem joinLines_headTail : ∀ (ls : List (List Char)),
    (∀ l ∈ ls, l ≠ [] ∧ headTailNonWs l = true) →
    headTailNonWs (joinLines ls) = true := by
  intro ls
  induction ls with
  | nil => intro _; rfl
  | cons l r ih =>
    intro h
    obtain ⟨hlne, hlht⟩ := h l (List.mem_cons_self _ _)
    cases r with
    | nil => exact hlht
    | cons m rr =>
      have hjoin : joinLines (l :: m :: rr) = l ++ ' ' :: joinLines (m :: rr) := rfl
      have hih : headTailNonWs (joinLines (m :: rr)) = true :=
        ih (fun x hx => h x (List.mem_cons_of_mem _ hx))
      have hmne : joinLines (m :: rr) ≠ [] := by
        have hm := (h m (by simp)).1
        cases rr with
        | nil => exact hm
        | cons q qs =>
          show m ++ ' ' :: joinLines (q :: qs) ≠ []
          simp
      rw [hjoin]
      unfold headTailNonWs at hlht hih ⊢
      rw [Bool.and_eq_true] at hlht hih ⊢
      obtain ⟨hlh, _⟩ := hlht
      obtain ⟨_, hjl⟩ := hih
      constructor
      · cases hcl : l.head? with
        | none => exact absurd (List.head?_eq_none_iff.mp hcl) hlne
        | some c =>
          rw [List.head?_append, hcl, Option.or_some]
          rw [hcl] at hlh
          exact hlh
      · cases hJ : joinLines (m :: rr) with
        | nil => exact absurd hJ hmne
        | cons a u =>
          rw [List.getLast?_append, List.getLast?_cons_cons]
          cases hg : (a :: u).getLast? with
          | none => exact absurd (List.getLast?_eq_none_iff.mp hg) (by simp)
          | some d =>
            rw [Option.or_some]
            rw [hJ, hg] at hjl
            exact hjl

theorem clean_sql_response_eq (x : List Char) :
    clean_sql_response x =
      collapseWs (stripWs (joinLines
        ((((splitOnChar '\n' (cleaned2def x)).map cleanLine).filter
            (fun l => ¬ l.isEmpty)).filter keepSqlLine))) := rfl

theorem startKw_wsFree :
    sqlStartKeywords.all (fun kw => kw.all (fun k => ¬ isWsChar k)) = true := by
  decide

theorem wordSet_wsFree :
    sqlWordSet.all (fun w => w.all (fun k => ¬ isWsChar k)) = true := by
  decide

theorem clauseKw_hasWord :
    sqlClauseKeywords.all
      (fun kw => sqlWordSet.any (fun w => containsSub w kw)) = true := by
  decide

theorem sqlLines_fact (ls0 : List (List Char)) :
    ∀ l ∈ ((ls0.map cleanLine).filter (fun l => ¬ l.isEmpty)).filter keepSqlLine,
      keepSqlLine l = true ∧ l ≠ [] ∧ headTailNonWs l = true ∧
        l.head? ≠ some btChar := by
  intro l hl
  rw [List.mem_filter] at hl
  obtain ⟨hl1, hkeep⟩ := hl
  rw [List.mem_filter] at hl1
  obtain ⟨hl2, hne0⟩ := hl1
  have hlne : l ≠ [] := by
    intro he
    subst he
    simp at hne0
  obtain ⟨l0, _, hl0⟩ := List.mem_map.mp hl2
  rcases cleanLine_spec l0 with hnil | hgood
  · rw [hl0] at hnil
    exact absurd hnil hlne
  · rw [hl0] at hgood
    exact ⟨hkeep, hlne, hgood.1, hgood.2⟩

theorem c5_core (ls : List (List Char))
    (hls : ∀ l ∈ ls, keepSqlLine l = true ∧ l ≠ [] ∧ headTailNonWs l = true ∧
      l.head? ≠ some btChar) :
    collapseWs (stripWs (joinLines ls)) = [] ∨
      ((collapseWs (stripWs (joinLines ls))).head? ≠ some btChar ∧
       (startsWithAny sqlStartKeywords
          (upperL (collapseWs (stripWs (joinLines ls)))) = true ∨
        containsAny sqlWordSet
          (upperL (collapseWs (stripWs (joinLines ls)))) = true)) := by
  cases ls with
  | nil => exact Or.inl rfl
  | cons l rest =>
    obtain ⟨hkeep, hlne, hlht, hlbt⟩ := hls l (List.mem_cons_self _ _)
    have hjht : headTailNonWs (joinLines (l :: rest)) = true :=
      joinLines_headTail _ (fun x hx => ⟨(hls x hx).2.1, (hls x hx).2.2.1⟩)
    have hstrip : stripWs (joinLines (l :: rest)) = joinLines (l :: rest) :=
      stripWs_eq_self hjht
    rw [hstrip]
    cases hc : l.head? with
    | none => exact absurd (List.head?_eq_none_iff.mp hc) hlne
    | some c =>
      have hcw : isWsChar c = false := by
        have h1 := hlht
        unfold headTailNonWs at h1
        rw [Bool.and_eq_true] at h1
        have h2 := h1.1
        rw [hc] at h2
        simpa using h2
      have hcbt : ¬ c = btChar := fun he => hlbt (by rw [hc, he])
      have hJh : (joinLines (l :: rest)).head? = some c :=
        headOfPre (joinLines_pre l rest) hc
      have hout : (collapseWs (joinLines (l :: rest))).head? = some c := by
        cases hJ : joinLines (l :: rest) with
        | nil => rw [hJ] at hJh; cases hJh
        | cons a u =>
          rw [hJ] at hJh
          have ha : a = c := Option.some.inj hJh
          have haw : isWsChar a = false := by rw [ha]; exact hcw
          have hstep : collapseWs (a :: u) = a :: collapseWsAux u false := by
            unfold collapseWs
            simp [collapseWsAux, haw]
          rw [hstep, List.head?_cons, ha]
      refine Or.inr ⟨?_, ?_⟩
      · rw [hout]
        intro he
        exact hcbt (Option.some.inj he)
      · have hlpre : l <+: joinLines (l :: rest) := joinLines_pre l rest
        have hlinf : l <:+: joinLines (l :: rest) := hlpre.isInfix
        unfold keepSqlLine at hkeep
        rw [Bool.or_eq_true] at hkeep
        rcases hkeep with hstart | hclause
        · refine Or.inl ?_
          obtain ⟨kw, hkwmem, hsw⟩ := List.any_eq_true.mp hstart
          have hpre1 : kw <+: upperL l := isPrefixOfIff.mp hsw
          have hpre2 : kw <+: upperL (joinLines (l :: rest)) :=
            hpre1.trans (List.IsPrefix.map toUpperChar hlpre)
          have hfin : kw <+: upperL (collapseWs (joinLines (l :: rest))) :=
            preUpCollapse kw (List.all_eq_true.mp startKw_wsFree kw hkwmem)
              _ false hpre2
          exact List.any_eq_true.mpr ⟨kw, hkwmem, isPrefixOfIff.mpr hfin⟩
        · refine Or.inr ?_
          obtain ⟨kw, hkwmem, hcs⟩ := List.any_eq_true.mp hclause
          have hkwinf : kw <:+: upperL l := containsSub_iff_inf.mp hcs
          obtain ⟨w, hwmem, hwc⟩ :=
            List.any_eq_true.mp (List.all_eq_true.mp clauseKw_hasWord kw hkwmem)
          have hwinf : w <:+: upperL (joinLines (l :: rest)) :=
            ((containsSub_iff_inf.mp hwc).trans hkwinf).trans
              (List.IsInfix.map toUpperChar hlinf)
          have hfin : w <:+: upperL (collapseWs (joinLines (l :: rest))) :=
            infUpCollapse w (List.all_eq_true.mp wordSet_wsFree w hwmem)
              _ false hwinf
          exact List.any_eq_true.mpr ⟨w, hwmem, containsSub_iff_inf.mpr hfin⟩


/-- C1: evaluation of the materializer of src/streamlit_app.py at the
failing input of Scenario B: raw string
`[(1, Decimal('500000.00')), (2, Decimal('750000.00'))]` with SQL
`SELECT property_id, price FROM properties`.  The code produces generic
columns `Column_1`, `Column_2` and the raw stringified cells `1`,
`500000.0` — not the inferred columns `Property Id`, `Price` with
currency-formatted prices that the specification (and the repository's own
`debug_column_names.py`, which imports the absent
`extract_column_names_from_sql`) expects. -/
theorem c1_code_eval :
    format_sql_result_to_dataframe
      (.str (sL ("[(1, Decimal(") ++ apos ++ sL ("500000.00") ++ apos ++
        sL (")), (2, Decimal(") ++ apos ++ sL ("750000.00") ++ apos ++
        sL ("))]")))
      (sL ("SELECT property_id, price FROM properties")) (sL ("")) =
    { cols := [sL ("Column_1"), sL ("Column_2")],
      rows := [[.str (sL ("1")), .str (sL ("500000.0"))],
               [.str (sL ("2")), .str (sL ("750000.0"))]] } := by
  rfl

/-- C3, counterexample: in `translate_to_obfuscated_sql` column
replacements run before table replacements, observably: on
`properties.priceY` the qualified substring replacement fires against the
still-present real table name, while the spec's tables-first order leaves
the column untouched (the bare `price` is not word-bounded there). -/
theorem c3_counterexample :
    translate_to_obfuscated_sql (sL ("properties.priceY")) =
      sL ("real_estate_items.monetary_valueY") ∧
    translate_to_obfuscated_sql_spec_order (sL ("properties.priceY")) =
      sL ("real_estate_items.priceY") ∧
    translate_to_obfuscated_sql (sL ("properties.priceY")) ≠
      translate_to_obfuscated_sql_spec_order (sL ("properties.priceY")) := by
  refine ⟨rfl, rfl, ?_⟩
  decide

/-- C3, amended: `translate_to_real_sql` replaces tables before columns,
while `translate_to_obfuscated_sql` replaces columns before tables; in
both directions the replacement lists are ordered longest source name
first, and table replacements are whole-word (an identifier embedded in a
longer word is never replaced).  The order is witnessed observably in each
direction against the swapped-order variant. -/
theorem c3_amended :
    isSortedLenDesc (sortByLenDesc REVERSE_TABLE_MAPPING) = true ∧
    isSortedLenDesc (sortByLenDesc REVERSE_COLUMN_MAPPING) = true ∧
    isSortedLenDesc (sortByLenDesc TABLE_MAPPING) = true ∧
    isSortedLenDesc (sortByLenDesc COLUMN_MAPPING) = true ∧
    translate_to_real_sql (sL ("real_estate_itemsX")) =
      sL ("real_estate_itemsX") ∧
    translate_to_real_sql (sL ("real_estate_items")) = sL ("properties") ∧
    translate_to_real_sql (sL ("real_estate_items.item_idY")) =
      sL ("properties.item_idY") ∧
    translate_to_real_sql_swapped_order (sL ("real_estate_items.item_idY")) =
      sL ("properties.property_idY") ∧
    translate_to_obfuscated_sql (sL ("properties.priceY")) =
      sL ("real_estate_items.monetary_valueY") ∧
    translate_to_obfuscated_sql_spec_order (sL ("properties.priceY")) =
      sL ("real_estate_items.priceY") := by
  refine ⟨?_, ?_, ?_, ?_, rfl, rfl, rfl, rfl, rfl, rfl⟩ <;> rfl

/-- C2, counterexample: translating the obfuscated statement
`SELECT item_id FROM real_estate_items` to real names and back yields
`SELECT item_ref FROM real_estate_items`: the bare real name `property_id`
is translated back through the longer qualified entry
`transactions.property_id`, so the round trip fails even up to case and
whitespace normalization — and the statement uses only mapped identifiers. -/
theorem c2_counterexample :
    roundTrip (sL ("SELECT item_id FROM real_estate_items")) =
      sL ("SELECT item_ref FROM real_estate_items") ∧
    normCaseWs (roundTrip (sL ("SELECT item_id FROM real_estate_items"))) ≠
      normCaseWs (sL ("SELECT item_id FROM real_estate_items")) := by
  refine ⟨rfl, ?_⟩
  decide

set_option maxHeartbeats 4000000 in
/-- C2, amended: the round trip `toObfuscated (toReal sql) = sql` holds
for statements over mapped obfuscated identifiers, excluding the five bare
column names `item_id`, `area_id`, `rep_id`, `average_deal_value`,
`holder_id` (whose real counterparts are pulled back through a longer
qualified entry of a different table): witnessed by a one-column statement
over each of the five tables, including the chained column `rep_ref` of
`commercial_events` (whose real name `listing_agent_id` returns through a
qualified entry of its own table). -/
theorem c2_amended :
    roundTrip (sL ("SELECT monetary_value FROM real_estate_items")) =
      sL ("SELECT monetary_value FROM real_estate_items") ∧
    roundTrip (sL ("SELECT city_name FROM geographic_areas")) =
      sL ("SELECT city_name FROM geographic_areas") ∧
    roundTrip (sL ("SELECT fee_percentage FROM sales_representatives")) =
      sL ("SELECT fee_percentage FROM sales_representatives") ∧
    roundTrip (sL ("SELECT rep_ref FROM commercial_events")) =
      sL ("SELECT rep_ref FROM commercial_events") ∧
    roundTrip (sL ("SELECT portfolio_worth FROM property_holders")) =
      sL ("SELECT portfolio_worth FROM property_holders") := by
  refine ⟨?_, ?_, ?_, ?_, ?_⟩ <;> rfl

/-- C9: if the rewriting inside `translate_to_real_sql` raises, the
function returns the original input untranslated, and on no input does it
return anything but the original value or the completed full rewrite —
never a partial rewrite.  (The rewrite raises exactly on truthy non-string
inputs, where the first `re.sub` call fails with a `TypeError`.) -/
theorem c9_theorem (v : PyVal) :
    ((tryRealRewrite v).isOk = false → translate_to_real_sql_py v = v) ∧
    (translate_to_real_sql_py v = v ∨
      ∃ s, v = .str s ∧
        translate_to_real_sql_py v = .str (realColumnPass (realTablePass s))) := by
  constructor
  · intro h
    cases v with
    | str s => simp [tryRealRewrite, Except.isOk, Except.toBool] at h
    | _ => simp [translate_to_real_sql_py, tryRealRewrite, ite_self]
  · cases v with
    | str s =>
      by_cases h : pyTruthy (PyVal.str s)
      · exact Or.inr ⟨s, rfl, by simp [translate_to_real_sql_py, h, tryRealRewrite]⟩
      · exact Or.inl (by simp [translate_to_real_sql_py, h])
    | _ => exact Or.inl (by simp [translate_to_real_sql_py, tryRealRewrite])

/-- C9, witness: the integer input 5 is truthy and non-string, the rewrite
raises on it, and the function returns it unchanged. -/
theorem c9_witness :
    (tryRealRewrite (PyVal.int 5)).isOk = false ∧
    translate_to_real_sql_py (PyVal.int 5) = PyVal.int 5 :=
  ⟨rfl, (c9_theorem (PyVal.int 5)).1 rfl⟩

/-- C10: `clean_sql_response` returns the empty string on every non-string
input (the function opens with `if not isinstance(sql_text, str):
return ""`). -/
theorem c10_theorem (v : PyVal) (h : isStrVal v = false) :
    clean_sql_response_py v = [] := by
  cases v <;> simp [isStrVal] at h ⊢ <;> rfl

/-- C10, witness: at `None`. -/
theorem c10_witness :
    isStrVal PyVal.none = false ∧ clean_sql_response_py PyVal.none = [] :=
  ⟨rfl, c10_theorem PyVal.none rfl⟩

/-- C8: on SQL `SELECT COUNT(*) FROM properties`, a one-row one-value
result `[(n,)]` and the question `how many properties are there` (which
matches none of the keywords table/customer/order/sale), the materializer
returns a one-row table with columns `Description`, `Count`, the label
`Total records` and the comma-grouped count; grouping is exercised at
42 and 1234567. -/
theorem c8_theorem :
    (∀ n : Int,
      format_sql_result_to_dataframe (.list [.tuple [.int n]])
        (sL ("SELECT COUNT(*) FROM properties"))
        (sL ("how many properties are there")) =
      frameOfDicts [[(sL ("Description"), .str (sL ("Total records"))),
                     (sL ("Count"), .str (intCommaFmt n))]]) ∧
    intCommaFmt 42 = sL ("42") ∧ intCommaFmt 1234567 = sL ("1,234,567") := by
  refine ⟨fun n => ?_, rfl, rfl⟩
  rfl

/-- C7, counterexample: the string `SELECT 1` is not list/tuple shaped,
yet the materializer does not produce a one-row "Result" table for it: it
produces the three-column query-not-executed status table, because the
string branch special-cases text containing SQL keywords. -/
theorem c7_counterexample :
    startsWithL ['['] (sL ("SELECT 1")) = false ∧
    startsWithL ['('] (sL ("SELECT 1")) = false ∧
    (format_sql_result_to_dataframe (.str (sL ("SELECT 1"))) [] []).cols =
      [sL ("Status"), sL ("SQL_Query"), sL ("Suggestion")] ∧
    format_sql_result_to_dataframe (.str (sL ("SELECT 1"))) [] [] ≠
      resultFrame (.str (sL ("SELECT 1"))) := by
  refine ⟨rfl, rfl, rfl, fun h => ?_⟩
  exact absurd (congrArg PyFrame.cols h) (by decide)

/-- C7, amended: a string input yields the one-row one-column "Result"
table holding the string whenever it is not list/tuple shaped AND free of
the SQL keywords SELECT/WITH/FROM/WHERE (case-insensitively) — keyworded
strings get the status table instead — or when it looks list/tuple shaped
but the parser returns it unchanged; the empty string yields the "Result"
table holding the empty string, and the empty list yields the one-row
"No data" table. -/
theorem c7_amended (s sqlQ uq : List Char) :
    (startsWithL ['['] s = false → startsWithL ['('] s = false →
      containsAny [sL ("SELECT"), sL ("WITH"), sL ("FROM"), sL ("WHERE")]
        (upperL s) = false →
      format_sql_result_to_dataframe (.str s) sqlQ uq =
        resultFrame (.str s)) ∧
    ((startsWithL ['['] s || startsWithL ['('] s) = true →
      parse_sql_result_string (.str s) = .str s →
      format_sql_result_to_dataframe (.str s) sqlQ uq =
        resultFrame (.str s)) ∧
    format_sql_result_to_dataframe (.str []) sqlQ uq =
      resultFrame (.str []) ∧
    format_sql_result_to_dataframe (.list []) sqlQ uq = noDataFrame := by
  refine ⟨fun h1 h2 h3 => ?_, fun h hp => ?_, rfl, rfl⟩
  · simp [format_sql_result_to_dataframe, formatCore, h1, h2, h3]
    rfl
  · have hq : pyEquals (parse_sql_result_string (.str s)) (.str s) = true := by
      rw [hp]; simp [pyEquals]
    simp [format_sql_result_to_dataframe, formatCore, h, hq]
    rfl

/-- C7, witness: a plain sentence and an unparseable paren-led string both
materialize to the "Result" table holding them. -/
theorem c7_witness :
    format_sql_result_to_dataframe (.str (sL ("hello there"))) [] [] =
      resultFrame (.str (sL ("hello there"))) ∧
    format_sql_result_to_dataframe (.str (sL ("(oops"))) [] [] =
      resultFrame (.str (sL ("(oops"))) :=
  ⟨(c7_amended (sL ("hello there")) [] []).1 rfl rfl rfl,
   (c7_amended (sL ("(oops")) [] []).2.1 rfl rfl⟩

/-- Every SQL string submitted by the guarded execution helper passes the
SELECT/SHOW/DESCRIBE prefix guard. -/
theorem runGuardedExec_trace (env : AgentEnv) (c x : List Char)
    (hx : x ∈ (runGuardedExec env c).2) : execGuard x = true := by
  unfold runGuardedExec at hx
  by_cases h : (¬ c.isEmpty && execGuard c) = true
  · rw [if_pos h] at hx
    have hg : execGuard c = true := by
      rw [Bool.and_eq_true] at h
      exact h.2
    cases hdb : env.dbRun c <;> rw [hdb] at hx <;>
      simp only [List.mem_singleton] at hx <;> rw [hx] <;> exact hg
  · rw [if_neg h] at hx
    simp at hx

/-- The metadata path submits exactly the fixed metadata statement. -/
theorem handleMetadataQuery_trace (env : AgentEnv) (q : List Char)
    (r : PQOut × List (List Char)) (h : handleMetadataQuery env q = some r) :
    r.2 = [METADATA_SQL] := by
  unfold handleMetadataQuery at h
  by_cases hc : (table_queries.any
      (fun p => containsSub p (stripWs (lowerL q)))) = true
  · rw [if_pos hc] at h
    cases hdb : env.dbRun METADATA_SQL <;> rw [hdb] at h <;>
      cases Option.some.inj h <;> rfl
  · rw [if_neg hc] at h
    cases h

/-- Every SQL string submitted by the last-resort step passes the prefix
guard, provided the strings already traced do. -/
theorem lastResortStep_trace (env : AgentEnv) (actual2 : PyVal)
    (tr0 : List (List Char)) (h0 : ∀ x ∈ tr0, execGuard x = true)
    (x : List Char) (hx : x ∈ (lastResortStep env actual2 tr0).2) :
    execGuard x = true := by
  simp only [lastResortStep] at hx
  split at hx
  · split at hx
    · rcases List.mem_append.mp hx with hL | hR
      · exact h0 x hL
      · exact runGuardedExec_trace env _ x hR
    · exact h0 x hx
  · exact h0 x hx

/-- Every SQL string submitted by the post-extraction pipeline passes the
prefix guard, provided the strings already traced do. -/
theorem processTail_trace (env : AgentEnv) (sqlQuery actual0 : PyVal)
    (tr0 : List (List Char)) (h0 : ∀ x ∈ tr0, execGuard x = true)
    (x : List Char) (hx : x ∈ (processTail env sqlQuery actual0 tr0).2) :
    execGuard x = true := by
  simp only [processTail] at hx
  split at hx
  · exact h0 x hx
  · split at hx
    · exact lastResortStep_trace env _ tr0 h0 x hx
    · exact lastResortStep_trace env _ tr0 h0 x hx

/-- Every SQL string submitted by the direct-execution attempt passes the
prefix guard. -/
theorem directAttempt_trace (env : AgentEnv) (sqlQuery : PyVal)
    (x : List Char) (hx : x ∈ (directAttempt env sqlQuery).2) :
    execGuard x = true := by
  cases sqlQuery <;> simp only [directAttempt] at hx <;>
    first
      | exact runGuardedExec_trace env _ x hx
      | simp at hx

/-- C6: `process_query` never submits a statement for execution unless it
passes the SELECT/SHOW/DESCRIBE prefix guard (the metadata statement is a
SELECT, and both the extracted candidate and the final-answer fallback are
executed only behind the guard on their cleaned text); a candidate of any
other statement kind is never in the execution trace, the orchestrator
moving on to the fallback result sources instead. -/
theorem c6_theorem (env : AgentEnv) (q s : List Char)
    (h : s ∈ (process_query env q).2) : execGuard s = true := by
  simp only [process_query] at h
  split at h
  · next r heq =>
    rw [handleMetadataQuery_trace env q r heq] at h
    simp only [List.mem_singleton] at h
    rw [h]
    decide
  · split at h
    · exact directAttempt_trace env _ s h
    · exact processTail_trace env _ _ _
        (fun x hx => directAttempt_trace env _ x hx) s h

/-- C6, witness: on a metadata question the trace is exactly the fixed
SELECT statement, and the theorem applies to it. -/
def envC6 : AgentEnv :=
  { dbRun := fun _ => .ok (.list []), chainSteps := [], chainResult := .none }

theorem c6_witness : execGuard METADATA_SQL = true :=
  c6_theorem envC6 (sL ("show tables")) METADATA_SQL
    (by rw [show (process_query envC6 (sL ("show tables"))).2 =
          [METADATA_SQL] from rfl]
        exact List.mem_singleton.mpr rfl)

/-- C4, counterexample: the claim fails on both counts.  The word `hello`
is free of fences and backticks, yet `clean_sql_response` maps it to the
empty string, not to itself (the keyword line filter drops it); and
`clean_sql_response` is not idempotent: on a SELECT line with a trailing
backtick followed by a junk line, the first pass returns the SELECT line
still carrying its backtick (the per-line loop strips leading backticks
only), and a second pass removes it. -/
theorem c4_counterexample :
    (c4Free.all (fun c => ¬ c = btChar) = true ∧
     containsSub fence3 c4Free = false ∧
     clean_sql_response c4Free ≠ c4Free) ∧
    clean_sql_response (clean_sql_response c4IdemInput) ≠
      clean_sql_response c4IdemInput := by
  refine ⟨⟨by decide, by decide, by decide⟩, by decide⟩

/-- C4 (amended): `clean_sql_response` of src/src/agent/nlp_agent.py
returns its input unchanged on inputs that are already in the extractor's
normal form: free of backticks, all whitespace being single interior
spaces, nonempty with non-space boundary characters, and starting
(case-insensitively) with one of the recognized SQL start keywords.
Pass-through does not extend to all fence- and backtick-free inputs, and
idempotence fails in general (see the counterexample). -/
theorem c4_amended (s : List Char) (h : passThroughInput s = true) :
    clean_sql_response s = s := by
  unfold passThroughInput at h
  simp only [Bool.and_eq_true] at h
  obtain ⟨⟨⟨⟨⟨hbt, hws⟩, hnd⟩, hhd⟩, hlst⟩, hkw⟩ := h
  cases s with
  | nil => exact absurd hhd Bool.false_ne_true
  | cons c t =>
    have hbtNotMem : ∀ d ∈ c :: t, ¬ d = btChar := fun d hd =>
      of_decide_eq_true (List.all_eq_true.mp hbt d hd)
    have hwsP : ∀ d ∈ c :: t, isWsChar d = false ∨ d = ' ' := by
      intro d hd
      have h0 := List.all_eq_true.mp hws d hd
      rw [Bool.or_eq_true] at h0
      rcases h0 with h1 | h2
      · left
        have h3 := of_decide_eq_true h1
        cases h4 : isWsChar d with
        | false => rfl
        | true => exact absurd h4 h3
      · right
        exact of_decide_eq_true h2
    have hcsp : ¬ c = ' ' := by simpa using hhd
    have hcw : isWsChar c = false := by
      rcases hwsP c (List.mem_cons_self _ _) with h | h
      · exact h
      · exact absurd h hcsp
    have hlne : (c :: t) ≠ [] := by simp
    have hdlast : (c :: t).getLast? = some ((c :: t).getLast hlne) :=
      List.getLast?_eq_getLast _ hlne
    have hdsp : ¬ (c :: t).getLast hlne = ' ' := by
      rw [hdlast] at hlst
      simpa using hlst
    have hdw : isWsChar ((c :: t).getLast hlne) = false := by
      rcases hwsP _ (List.getLast_mem hlne) with h | h
      · exact h
      · exact absurd h hdsp
    have hht : headTailNonWs (c :: t) = true := by
      unfold headTailNonWs
      rw [Bool.and_eq_true]
      constructor
      · rw [List.head?_cons]
        simpa using hcw
      · rw [hdlast]
        simpa using hdw
    have hstrip : stripWs (c :: t) = c :: t := stripWs_eq_self hht
    have hsw3 : startsWithL fence3 (c :: t) = false :=
      startsWith_false_notMem (c := btChar) (by simp [fence3])
        (fun hm => hbtNotMem _ hm rfl)
    have hsw1 : startsWithL [btChar] (c :: t) = false :=
      startsWith_false_notMem (by simp) (fun hm => hbtNotMem _ hm rfl)
    have hew1 : endsWithL [btChar] (c :: t) = false :=
      endsWith_false_notMem (by simp) (fun hm => hbtNotMem _ hm rfl)
    have hml : multilineFenceMatch (c :: t) = Option.none := by
      simp [multilineFenceMatch, hsw3]
    have hil : inlineFenceMatch (c :: t) = Option.none := by
      simp [inlineFenceMatch, hsw3]
    have h1 : cleaned1def (c :: t) = c :: t := by
      unfold cleaned1def
      rw [hstrip, hml, hil]
    have h2 : cleaned2def (c :: t) = c :: t := by
      unfold cleaned2def
      rw [h1]
      simp [stripBackticksLoop, hsw1, hew1]
    have hnl : ∀ e ∈ c :: t, ¬ e = '\n' := by
      intro e he hee
      subst hee
      rcases hwsP _ he with h | h
      · exact absurd h (by decide)
      · exact absurd h (by decide)
    have hsplit : splitOnChar '\n' (c :: t) = [c :: t] :=
      splitOnChar_eq_single hnl
    have hclean : cleanLine (c :: t) = c :: t := by
      unfold cleanLine
      rw [hstrip]
      exact lineStripLoop_id hsw1 _
    have hkeep : keepSqlLine (c :: t) = true := by
      unfold keepSqlLine
      rw [hkw, Bool.true_or]
    have hcollapse : collapseWs (c :: t) = c :: t :=
      collapseWsAux_id _ hws hnd false (fun hf => absurd hf Bool.false_ne_true)
    have hfil1 : List.filter (fun l => ¬ l.isEmpty) [c :: t] = [c :: t] := by
      rw [List.filter_cons, if_pos (by simp), List.filter_nil]
    have hfil2 : List.filter keepSqlLine [c :: t] = [c :: t] := by
      rw [List.filter_cons, if_pos hkeep, List.filter_nil]
    have hjoin : joinLines [c :: t] = c :: t := rfl
    rw [clean_sql_response_eq, h2, hsplit, List.map_cons, List.map_nil,
      hclean, hfil1, hfil2, hjoin, hstrip, hcollapse]

/-- C4 (amended), witness: the amended theorem applied to the clean
statement `SELECT a FROM t`, whose side condition evaluates to true. -/
theorem c4_amended_witness :
    passThroughInput (sL ("SELECT a FROM t")) = true ∧
    clean_sql_response (sL ("SELECT a FROM t")) = sL ("SELECT a FROM t") :=
  ⟨rfl, c4_amended _ rfl⟩

/-- C5, counterexample: on the input `x(backtick)x(backtick) FROM t` the
extractor's output still contains a backtick (the per-line loop removes
leading backticks only, and the line is kept by the FROM clause test), is
nonempty, and does not begin with a recognized SQL keyword — refuting both
the no-backtick part and the empty-or-keyword part of the claim. -/
theorem c5_counterexample :
    containsSub [btChar] (clean_sql_response c5CtrInput) = true ∧
    startsWithAny sqlStartKeywords (upperL (clean_sql_response c5CtrInput)) =
      false ∧
    clean_sql_response c5CtrInput ≠ [] := by
  refine ⟨by decide, by decide, by decide⟩

/-- C5 (amended): for every input, the output of `clean_sql_response` of
src/src/agent/nlp_agent.py is the empty string, or it does not BEGIN with
a backtick and either starts (case-insensitively) with a recognized SQL
start keyword or contains one of the whitespace-free SQL words FROM,
WHERE, AND, OR, GROUP, HAVING, JOIN.  Interior backticks can survive, so
the original no-backtick-anywhere/starts-with-keyword invariant had to be
weakened to this one. -/
theorem c5_amended : ∀ x : List Char,
    clean_sql_response x = [] ∨
      ((clean_sql_response x).head? ≠ some btChar ∧
       (startsWithAny sqlStartKeywords (upperL (clean_sql_response x)) = true ∨
        containsAny sqlWordSet (upperL (clean_sql_response x)) = true)) := by
  intro x
  rw [clean_sql_response_eq]
  exact c5_core _ (sqlLines_fact _)

end SnowNLP
